import Mathlib

/-!
# Capture lifecycle controller (cmd/main.go)

A shallow embedding of the pod-annotation driven tcpdump controller:
the annotation interpreter `getCaptureCount`, the registry `captureProcs`,
the process lifecycle functions `startCapture` / `stopCapture` and the three
informer handlers `AddFunc`, `UpdateFunc`, `DeleteFunc`.

Go strings are read character by character; a character outside ASCII is,
like each of its bytes in Go, not a decimal digit and not a sign.
Go maps are total functions into `Option`.
The operating system (process start, kill, file removal) is an oracle `OS`
indexed by the number of events that happened so far, so every external
call may succeed or fail independently of every other one.
-/

namespace Antrea

/-! ## strconv.Atoi (Go standard library) -/

/-- Width of the Go type int (strconv.IntSize) on the build target. -/
inductive IntSize
  | w32
  | w64
deriving DecidableEq, Repr

/-- Number of bits of int. -/
def IntSize.bits : IntSize → Nat
  | .w32 => 32
  | .w64 => 64

/-- The two error kinds a strconv.NumError wraps. -/
inductive NumError
  | ErrSyntax
  | ErrRange
deriving DecidableEq, Repr

/-- The test `'0' <= c && c <= '9'` on one character. -/
def isDecimal (c : Char) : Bool :=
  decide ('0'.toNat ≤ c.toNat) && decide (c.toNat ≤ '9'.toNat)

/-- The value `c - '0'` of a decimal digit. -/
def digitVal (c : Char) : Nat := c.toNat - '0'.toNat

/-- Loop of strconv.ParseUint for base 10: `cutoff = maxUint64/10 + 1`,
`maxVal = 1<<bitSize - 1`, the accumulator `n` is a uint64.  Every character
that is not a decimal digit (a letter is a digit value of at least 10, the
underscore is only legal for base 0) is a syntax error. -/
def parseUintLoop (maxVal : Nat) : List Char → Nat → Nat × Option NumError
  | [], n => (n, none)
  | c :: cs, n =>
    if isDecimal c then
      if n ≥ (2 ^ 64 - 1) / 10 + 1 then
        (maxVal, some .ErrRange)
      else
        let n10 := (n * 10) % 2 ^ 64
        let n1 := (n10 + digitVal c) % 2 ^ 64
        if n1 < n10 ∨ n1 > maxVal then
          (maxVal, some .ErrRange)
        else
          parseUintLoop maxVal cs n1
    else
      (0, some .ErrSyntax)

/-- The call strconv.ParseUint(s, 10, bitSize) with bitSize = IntSize. -/
def ParseUint (w : IntSize) (s : List Char) : Nat × Option NumError :=
  match s with
  | [] => (0, some .ErrSyntax)
  | _ => parseUintLoop (2 ^ w.bits - 1) s 0

/-- The call strconv.ParseInt(s, 10, 0): pick off the sign, convert the
unsigned part, check the range of int. -/
def ParseInt (w : IntSize) (s : List Char) : Int × Option NumError :=
  match s with
  | [] => (0, some .ErrSyntax)
  | c :: rest =>
    let neg : Bool := c == '-'
    let body := if c == '+' || c == '-' then rest else s
    match ParseUint w body with
    | (_, some .ErrSyntax) => (0, some .ErrSyntax)
    | (un, _) =>
      let cutoff : Nat := 2 ^ (w.bits - 1)
      if !neg && decide (un ≥ cutoff) then
        ((cutoff : Int) - 1, some .ErrRange)
      else if neg && decide (un > cutoff) then
        (-(cutoff : Int), some .ErrRange)
      else
        (if neg then -(un : Int) else (un : Int), none)

/-- Loop of the fast path of strconv.Atoi: `ch -= '0'; if ch > 9 { error }`,
`n = n*10 + int(ch)`.  The length guard of the fast path keeps `n` below
`10^18` (`10^9` for a 32-bit int), so the int never wraps. -/
def atoiFastLoop : List Char → Nat → Option Nat
  | [], n => some n
  | c :: cs, n =>
    if isDecimal c then atoiFastLoop cs (n * 10 + digitVal c) else none

/-- The function strconv.Atoi: the value and the error (none is nil). -/
def Atoi (w : IntSize) (s : String) : Int × Option NumError :=
  let cs := s.toList
  let sLen := cs.length
  if (w = .w32 ∧ 0 < sLen ∧ sLen < 10) ∨ (w = .w64 ∧ 0 < sLen ∧ sLen < 19) then
    match cs with
    | [] => (0, some .ErrSyntax)
    | c :: rest =>
      let signed : Bool := c == '-' || c == '+'
      let body := if signed then rest else cs
      if signed && body.isEmpty then
        (0, some .ErrSyntax)
      else
        match atoiFastLoop body 0 with
        | none => (0, some .ErrSyntax)
        | some n => (if c == '-' then -(n : Int) else (n : Int), none)
  else
    ParseInt w cs

/-! ## Pods and the annotation interpreter -/

/-- The fields of corev1.Pod the controller reads. -/
structure Pod where
  Namespace : String
  Name : String
  NodeName : String
  Annotations : String → Option String

/-- A Go error value built by the controller or returned by the system. -/
inductive GoError
  | errorf (format : String) (arg : String)
  | sys (msg : String)
deriving DecidableEq, Repr

/-- Source: getCaptureCount (cmd/main.go 34-46). -/
def getCaptureCount (w : IntSize) (pod : Pod) : Int × Bool × Option GoError :=
  match pod.Annotations "tcpdump.antrea.io" with
  | none => (0, false, none)
  | some val =>
    let (n, err) := Atoi w val
    if err ≠ none ∨ n ≤ 0 then
      (0, true, some (.errorf "invalid tcpdump.antrea.io value: %q" val))
    else
      (n, true, none)

/-- Follows the spec's words: the natural number a non-empty string of decimal
digits denotes, read positionally. -/
def decimalNumeral (ds : List Char) : Option Nat :=
  if ds ≠ [] ∧ ds.all isDecimal = true then
    some (Nat.ofDigits 10 (ds.reverse.map digitVal))
  else
    none

/-- Follows the spec's words: `s` parses as a base-10 integer, that is an
optional sign followed by a decimal numeral. -/
def parsesBase10 (s : String) : Option Int :=
  match s.toList with
  | '-' :: ds => Option.map (fun (v : Nat) => -(v : Int)) (decimalNumeral ds)
  | '+' :: ds => Option.map (fun (v : Nat) => (v : Int)) (decimalNumeral ds)
  | ds => Option.map (fun (v : Nat) => (v : Int)) (decimalNumeral ds)

/-- A pod on node `node` whose only annotation is the capture annotation. -/
def podWith (ns name node val : String) : Pod :=
  { Namespace := ns, Name := name, NodeName := node,
    Annotations := fun k => if k = "tcpdump.antrea.io" then some val else none }

/-- A pod on node `node` without annotations. -/
def podBare (ns name node : String) : Pod :=
  { Namespace := ns, Name := name, NodeName := node, Annotations := fun _ => none }

/-! ## Registry, events and the operating system -/

/-- A running process (the os.Process behind a started exec.Cmd). -/
structure Process where
  Pid : Nat
deriving DecidableEq, Repr

/-- A started command: the argument vector given to exec.Command and the
process that Start created. -/
structure Cmd where
  Args : List String
  Proc : Process
deriving DecidableEq, Repr

/-- Source: captureInfo (cmd/main.go 48-51). -/
structure captureInfo where
  cmd : Cmd
  n : Int
deriving DecidableEq, Repr

/-- An argument of a Printf call. -/
inductive Arg
  | str (s : String)
  | int (i : Int)
  | err (e : GoError)
deriving DecidableEq, Repr

/-- What the controller does to the outside world, in order: a line printed,
a process start attempted (with its outcome), a kill attempted, a file
removal attempted. -/
inductive Event
  | printf (format : String) (args : List Arg)
  | start (argv : List String) (proc : Option Process) (err : Option GoError)
  | kill (p : Process) (err : Option GoError)
  | remove (file : String) (err : Option GoError)
deriving DecidableEq, Repr

/-- The operating system as an oracle.  The first argument is the number of
events that happened before the call, so the same call may succeed at one
time and fail at another. -/
structure OS where
  Start : Nat → List String → Except GoError Process
  Kill : Nat → Process → Option GoError
  Remove : Nat → String → Option GoError

/-- The controller state: the registry `captureProcs` (cmd/main.go 53-56) and
the events so far.  The mutex `mu` is held for the whole of startCapture and
stopCapture, which therefore run as single steps. -/
structure State where
  captureProcs : String → Option captureInfo
  trace : List Event

/-- The state at controller start: empty registry, nothing done yet. -/
def State.init : State :=
  { captureProcs := fun _ => none, trace := [] }

/-- Append events to the trace. -/
def State.emit (st : State) (evs : List Event) : State :=
  { st with trace := st.trace ++ evs }

/-- Source: podKey (cmd/main.go 59-61). -/
def podKey (pod : Pod) : String :=
  pod.Namespace ++ "/" ++ pod.Name

/-- The value of `fmt.Sprintf("/captures/capture-%s.pcap", pod.Name)`
(cmd/main.go 74 and 117). -/
def pcapBase (name : String) : String :=
  "/captures/capture-" ++ name ++ ".pcap"

/-- The argument vector of the tcpdump command (cmd/main.go 76-81). -/
def tcpdumpArgs (pod : Pod) (n : Int) : List String :=
  ["tcpdump", "-C", "1M", "-W", toString n, "-w", pcapBase pod.Name]

/-- Source: startCapture (cmd/main.go 63-97). -/
def startCapture (os : OS) (pod : Pod) (n : Int) (st : State) : State :=
  let key := podKey pod
  match st.captureProcs key with
  | some _ =>
    st.emit [.printf "[INFO] capture already running for %s\n" [.str key]]
  | none =>
    let pcapPath := pcapBase pod.Name
    let argv := tcpdumpArgs pod n
    match os.Start st.trace.length argv with
    | .error err =>
      st.emit [.start argv none (some err),
        .printf "[ERROR] failed to start tcpdump for %s: %v\n" [.str key, .err err]]
    | .ok p =>
      { captureProcs := fun k =>
          if k = key then some { cmd := { Args := argv, Proc := p }, n := n }
          else st.captureProcs k,
        trace := st.trace ++ [.start argv (some p) none,
          .printf "[CAPTURE RUNNING] %s -> %s\n" [.str key, .str pcapPath]] }

/-- The file name built in iteration `i` of the removal loop
(cmd/main.go 120-123). -/
def rotatedFile (base : String) (i : Nat) : String :=
  if i > 0 then base ++ toString i else base

/-- One iteration of the removal loop of stopCapture (cmd/main.go 119-128). -/
def removeStep (os : OS) (base : String) (tr : List Event) (i : Nat) : List Event :=
  let file := rotatedFile base i
  match os.Remove tr.length file with
  | none => tr ++ [.remove file none, .printf "[PCAP DELETED] %s\n" [.str file]]
  | some e => tr ++ [.remove file (some e)]

/-- Source: stopCapture (cmd/main.go 99-134). -/
def stopCapture (os : OS) (pod : Pod) (st : State) : State :=
  let key := podKey pod
  match st.captureProcs key with
  | none =>
    st.emit [.printf "[INFO] no running capture for %s\n" [.str key]]
  | some info =>
    let killErr := os.Kill st.trace.length info.cmd.Proc
    let tr1 := st.trace ++ [.kill info.cmd.Proc killErr] ++
      (match killErr with
       | some e => [.printf "[ERROR] failed to stop tcpdump for %s: %v\n" [.str key, .err e]]
       | none => [])
    let base := pcapBase pod.Name
    let tr2 := (List.range info.n.toNat).foldl (removeStep os base) tr1
    { captureProcs := fun k => if k = key then none else st.captureProcs k,
      trace := tr2 ++ [.printf "[CAPTURE STOPPED] %s\n" [.str key]] }

/-! ## The informer handlers -/

/-- Source: AddFunc (cmd/main.go 168-183). -/
def AddFunc (w : IntSize) (nodeName : String) (pod : Pod) (st : State) : State :=
  if pod.NodeName ≠ nodeName then st
  else
    match getCaptureCount w pod with
    | (_, _, some err) =>
      st.emit [.printf "[ERROR] %s/%s: %v\n" [.str pod.Namespace, .str pod.Name, .err err]]
    | (n, ok, none) =>
      if ok then
        st.emit [.printf "[CAPTURE REQUESTED] %s/%s N=%d\n"
          [.str pod.Namespace, .str pod.Name, .int n]]
      else st

/-- Source: UpdateFunc (cmd/main.go 185-223). -/
def UpdateFunc (w : IntSize) (os : OS) (nodeName : String) (oldPod newPod : Pod)
    (st : State) : State :=
  if newPod.NodeName ≠ nodeName then st
  else
    let (oldN, oldOk, _) := getCaptureCount w oldPod
    let (newN, newOk, err) := getCaptureCount w newPod
    match err with
    | some e =>
      st.emit [.printf "[ERROR] %s/%s: %v\n"
        [.str newPod.Namespace, .str newPod.Name, .err e]]
    | none =>
      let st1 :=
        if !oldOk && newOk then
          startCapture os newPod newN
            (st.emit [.printf "[CAPTURE START] %s/%s N=%d\n"
              [.str newPod.Namespace, .str newPod.Name, .int newN]])
        else st
      let st2 :=
        if oldOk && !newOk then
          stopCapture os newPod
            (st1.emit [.printf "[CAPTURE STOP] %s/%s\n"
              [.str newPod.Namespace, .str newPod.Name]])
        else st1
      if oldOk && newOk && oldN != newN then
        startCapture os newPod newN
          (stopCapture os newPod
            (st2.emit [.printf "[CAPTURE UPDATE] %s/%s N=%d\n"
              [.str newPod.Namespace, .str newPod.Name, .int newN]]))
      else st2

/-- What the informer hands to the delete handler as `obj`: the deleted pod,
or, when the watch missed the deletion, a cache.DeletedFinalStateUnknown
holding the key and the last known state of the pod. -/
inductive DeletedObj
  | pod (p : Pod)
  | finalStateUnknown (Key : String) (Obj : Pod)

/-- Source: DeleteFunc (cmd/main.go 226-234).  The result none is the run-time
panic of the unchecked type assertion `obj.(*corev1.Pod)` (line 227) on an
object that is not a pod: the handler does nothing more. -/
def DeleteFunc (os : OS) (nodeName : String) (obj : DeletedObj) (st : State) : Option State :=
  match obj with
  | .finalStateUnknown _ _ => none
  | .pod pod =>
    if pod.NodeName ≠ nodeName then some st
    else
      some (stopCapture os pod
        (st.emit [.printf "[DELETE] %s/%s\n" [.str pod.Namespace, .str pod.Name]]))

/-! ## Reading the trace -/

/-- The events `st1` has beyond those of the earlier state `st0`. -/
def eventsSince (st0 st1 : State) : List Event :=
  st1.trace.drop st0.trace.length

/-- The processes created by the successful starts among the events. -/
def spawned : List Event → List Process
  | [] => []
  | .start _ (some p) _ :: evs => p :: spawned evs
  | _ :: evs => spawned evs

/-- The argument vectors of all start attempts among the events. -/
def startAttempts : List Event → List (List String)
  | [] => []
  | .start argv _ _ :: evs => argv :: startAttempts evs
  | _ :: evs => startAttempts evs

/-- The processes on which a kill was attempted. -/
def killAttempts : List Event → List Process
  | [] => []
  | .kill p _ :: evs => p :: killAttempts evs
  | _ :: evs => killAttempts evs

/-- The files whose removal was attempted, in order. -/
def removeAttempts : List Event → List String
  | [] => []
  | .remove file _ :: evs => file :: removeAttempts evs
  | _ :: evs => removeAttempts evs

/-- The format of a line announces an error. -/
def isErrorFormat (format : String) : Bool :=
  "[ERROR]".toList.isPrefixOf format.toList

/-- The lines printed with an `[ERROR]` format. -/
def errorLines : List Event → List Event
  | [] => []
  | .printf format args :: evs =>
    if isErrorFormat format then .printf format args :: errorLines evs
    else errorLines evs
  | _ :: evs => errorLines evs

/-- An operating system on which every call succeeds; a started process gets
the current event count as its pid. -/
def OS.allOk : OS :=
  { Start := fun t _ => .ok { Pid := t }, Kill := fun _ _ => none, Remove := fun _ _ => none }

/-- An operating system on which every call fails. -/
def OS.allFail : OS :=
  { Start := fun _ _ => .error (.sys "exec: not found"),
    Kill := fun _ _ => some (.sys "os: process already finished"),
    Remove := fun _ _ => some (.sys "no such file or directory") }

/-- An operating system on which a start succeeds and every kill and every
file removal fails. -/
def OS.startOnly : OS :=
  { Start := fun t _ => .ok { Pid := t },
    Kill := fun _ _ => some (.sys "os: process already finished"),
    Remove := fun _ _ => some (.sys "no such file or directory") }

/-- A sample pod: default/web on node1, asking for 3 capture files. -/
def samplePod : Pod := podWith "default" "web" "node1" "3"

/-- The registry entry a successful start of `n` files for `pod` installs. -/
def entryFor (pod : Pod) (n : Int) (p : Process) : captureInfo :=
  { cmd := { Args := tcpdumpArgs pod n, Proc := p }, n := n }

/-! ## Auxiliary definitions for the proofs -/

/-- The positional value of the digits `cs` read after the prefix value `n`. -/
def valOf (cs : List Char) (n : Nat) : Nat :=
  cs.foldl (fun a c => a * 10 + digitVal c) n

/-- The reading of an optionally signed decimal numeral, on the character list. -/
def signedVal (cs : List Char) : Option Int :=
  match cs with
  | [] => none
  | c :: rest =>
    if c = '-' then Option.map (fun (v : Nat) => -(v : Int)) (decimalNumeral rest)
    else if c = '+' then Option.map (fun (v : Nat) => (v : Int)) (decimalNumeral rest)
    else Option.map (fun (v : Nat) => (v : Int)) (decimalNumeral (c :: rest))

/-- The value `v` fits the Go type int. -/
def inRange (w : IntSize) (v : Int) : Prop :=
  -(2 ^ (w.bits - 1) : Int) ≤ v ∧ v < (2 ^ (w.bits - 1) : Int)

/-- The part of ParseInt after the sign has been picked off. -/
def parseIntCore (w : IntSize) (neg : Bool) (body : List Char) : Int × Option NumError :=
  match ParseUint w body with
  | (_, some .ErrSyntax) => (0, some .ErrSyntax)
  | (un, _) =>
    let cutoff : Nat := 2 ^ (w.bits - 1)
    if !neg && decide (un ≥ cutoff) then
      ((cutoff : Int) - 1, some .ErrRange)
    else if neg && decide (un > cutoff) then
      (-(cutoff : Int), some .ErrRange)
    else
      (if neg then -(un : Int) else (un : Int), none)

/-- The fast path of Atoi, on the character list. -/
def atoiFast (cs : List Char) : Int × Option NumError :=
  match cs with
  | [] => (0, some .ErrSyntax)
  | c :: rest =>
    let signed : Bool := c == '-' || c == '+'
    let body := if signed then rest else cs
    if signed && body.isEmpty then
      (0, some .ErrSyntax)
    else
      match atoiFastLoop body 0 with
      | none => (0, some .ErrSyntax)
      | some n => (if c == '-' then -(n : Int) else (n : Int), none)

/-- The fast path after the sign test. -/
def fastTail (signed neg : Bool) (body : List Char) : Int × Option NumError :=
  if signed && body.isEmpty then
    (0, some .ErrSyntax)
  else
    match atoiFastLoop body 0 with
    | none => (0, some .ErrSyntax)
    | some n => (if neg then -(n : Int) else (n : Int), none)

/-! ## Capture requests -/

/-- The capture request of the spec's data model. -/
inductive Request
  | Absent
  | Invalid (e : GoError)
  | Active (n : Int)
deriving DecidableEq, Repr

/-- The request a pod's annotations yield, read off the three results of
getCaptureCount as the handlers read them: an error is Invalid, otherwise the
presence flag tells Active from Absent. -/
def interpret (w : IntSize) (pod : Pod) : Request :=
  match getCaptureCount w pod with
  | (_, _, some e) => .Invalid e
  | (n, true, none) => .Active n
  | (_, false, none) => .Absent

/-! ## Sequences of notifications -/

/-- A notification of the pod informer. -/
inductive Notification
  | add (pod : Pod)
  | update (oldPod newPod : Pod)
  | delete (obj : DeletedObj)

/-- Dispatch of one notification to its handler (cmd/main.go 167-236); none
when the handler panics. -/
def handle (w : IntSize) (os : OS) (nodeName : String) (st : State) :
    Notification → Option State
  | .add pod => some (AddFunc w nodeName pod st)
  | .update oldPod newPod => some (UpdateFunc w os nodeName oldPod newPod st)
  | .delete obj => DeleteFunc os nodeName obj st

/-- The notifications handled one after the other.  A panic ends the run: the
result is then the state reached before the panicking handler. -/
def runNotifications (w : IntSize) (os : OS) (nodeName : String) :
    List Notification → State → State
  | [], st => st
  | nt :: rest, st =>
    match handle w os nodeName st nt with
    | none => st
    | some st2 => runNotifications w os nodeName rest st2

/-- A chain of update notifications for one pod, handled in order: the old
snapshot of each update is the new snapshot of the update before it. -/
def runUpdates (w : IntSize) (os : OS) (nodeName : String) :
    Pod → List Pod → State → State
  | _, [], st => st
  | oldPod, newPod :: rest, st =>
    runUpdates w os nodeName newPod rest (UpdateFunc w os nodeName oldPod newPod st)

/-- Follows the spec's words: the most recent non-Invalid request among the
snapshots, `r` being the most recent one before them. -/
def lastValid (w : IntSize) : Request → List Pod → Request
  | r, [] => r
  | r, p :: ps =>
    match interpret w p with
    | .Invalid _ => lastValid w r ps
    | .Absent => lastValid w .Absent ps
    | .Active n => lastValid w (.Active n) ps

/-- Every tracked entry has a rotation count of at least one. -/
def CountsPositive (st : State) : Prop :=
  ∀ k info, st.captureProcs k = some info → 1 ≤ info.n

/-- The registry agrees with a request for the key: nothing tracked for
Absent, an entry with count n for Active(n). -/
def Tracks (st : State) (key : String) : Request → Prop
  | .Absent => st.captureProcs key = none
  | .Active n => ∃ info, st.captureProcs key = some info ∧ info.n = n
  | .Invalid _ => False

/-! ## Goroutines inside startCapture -/

/-- The program points of one goroutine running startCapture: before
`mu.Lock()` (line 66), holding `mu` before the lookup (line 69), holding `mu`
before `cmd.Start()` (line 86), holding `mu` before the deferred
`mu.Unlock()`, and returned. -/
inductive Pc
  | lock
  | check
  | spawn
  | unlock
  | done
deriving DecidableEq, Repr

/-- Goroutines running startCapture for the same pod and count: the shared
controller state, the goroutine holding `mu` if any, and the program point of
each goroutine. -/
structure Conc where
  st : State
  mu : Option Nat
  pcs : List Pc

/-- `N` goroutines about to call startCapture, the mutex free. -/
def Conc.start (N : Nat) (st : State) : Conc :=
  { st := st, mu := none, pcs := List.replicate N .lock }

/-- Every goroutine has returned. -/
def Conc.finished (c : Conc) : Bool :=
  c.pcs.all (fun pc => pc == .done)

/-- One step of goroutine `i` inside startCapture (cmd/main.go 63-97); none
when the goroutine cannot move: it waits for `mu`, has returned, or does not
exist. -/
def stepStart (os : OS) (pod : Pod) (n : Int) (i : Nat) (c : Conc) : Option Conc :=
  match c.pcs[i]? with
  | some .lock =>
    match c.mu with
    | none => some { c with mu := some i, pcs := c.pcs.set i .check }
    | some _ => none
  | some .check =>
    match c.st.captureProcs (podKey pod) with
    | some _ =>
      some { c with
        st := c.st.emit [.printf "[INFO] capture already running for %s\n" [.str (podKey pod)]],
        pcs := c.pcs.set i .unlock }
    | none => some { c with pcs := c.pcs.set i .spawn }
  | some .spawn =>
    match os.Start c.st.trace.length (tcpdumpArgs pod n) with
    | .error err =>
      some { c with
        st := c.st.emit [.start (tcpdumpArgs pod n) none (some err),
          .printf "[ERROR] failed to start tcpdump for %s: %v\n" [.str (podKey pod), .err err]],
        pcs := c.pcs.set i .unlock }
    | .ok p =>
      some { c with
        st :=
          { captureProcs := fun k =>
              if k = podKey pod then
                some { cmd := { Args := tcpdumpArgs pod n, Proc := p }, n := n }
              else c.st.captureProcs k,
            trace := c.st.trace ++ [.start (tcpdumpArgs pod n) (some p) none,
              .printf "[CAPTURE RUNNING] %s -> %s\n"
                [.str (podKey pod), .str (pcapBase pod.Name)]] },
        pcs := c.pcs.set i .unlock }
  | some .unlock => some { c with mu := none, pcs := c.pcs.set i .done }
  | some .done => none
  | none => none

/-- An interleaving: the goroutines named by the schedule step one after the
other; none when a named goroutine cannot move. -/
def runSchedule (os : OS) (pod : Pod) (n : Int) : List Nat → Conc → Option Conc
  | [], c => some c
  | i :: rest, c =>
    match stepStart os pod n i c with
    | none => none
    | some c2 => runSchedule os pod n rest c2

/-- The number of suppressed duplicates: `capture already running` lines. -/
def duplicateNotices : List Event → Nat
  | [] => 0
  | .printf format _ :: evs =>
    (if format = "[INFO] capture already running for %s\n" then 1 else 0) +
      duplicateNotices evs
  | _ :: evs => duplicateNotices evs

/-- No goroutine of the list is inside the critical section. -/
def quiet (l : List Pc) : Prop :=
  ∀ pc ∈ l, pc = .lock ∨ pc = .done

/-- The invariant of the interleavings: with `mu` free nobody is inside and
the state is that of as many complete calls as goroutines have returned; with
`mu` held by `i` only `i` is inside, and the state follows its program
point. -/
def ConcInv (S : State → State) (key : String) (st0 : State) (c : Conc) : Prop :=
  match c.mu with
  | none => quiet c.pcs ∧ c.st = S^[c.pcs.count .done] st0
  | some i =>
    quiet (c.pcs.set i .lock) ∧
      ((c.pcs[i]? = some .check ∧ c.st = S^[c.pcs.count .done] st0) ∨
       (c.pcs[i]? = some .spawn ∧ c.st = S^[c.pcs.count .done] st0 ∧
          c.st.captureProcs key = none) ∨
       (c.pcs[i]? = some .unlock ∧ c.st = S^[c.pcs.count .done + 1] st0))

/-! ## Decimal reading: strconv.Atoi against the positional value -/

theorem valOf_nil (n : Nat) : valOf [] n = n := rfl

theorem valOf_cons (c : Char) (cs : List Char) (n : Nat) :
    valOf (c :: cs) n = valOf cs (n * 10 + digitVal c) := rfl

theorem valOf_ge (cs : List Char) (n : Nat) : n ≤ valOf cs n := by
  induction cs generalizing n with
  | nil => simp [valOf_nil]
  | cons c cs ih =>
    rw [valOf_cons]
    have := ih (n * 10 + digitVal c)
    omega

theorem digitVal_le {c : Char} (h : isDecimal c = true) : digitVal c ≤ 9 := by
  simp only [isDecimal, Bool.and_eq_true, decide_eq_true_eq] at h
  have h9 : '9'.toNat = 57 := rfl
  have h0 : '0'.toNat = 48 := rfl
  simp only [digitVal]
  omega

theorem valOf_lt (cs : List Char) (n : Nat) (h : cs.all isDecimal = true) :
    valOf cs n < (n + 1) * 10 ^ cs.length := by
  induction cs generalizing n with
  | nil => simp [valOf_nil]
  | cons c cs ih =>
    rw [valOf_cons]
    simp only [List.all_cons, Bool.and_eq_true] at h
    have hd := digitVal_le h.1
    have := ih (n * 10 + digitVal c) h.2
    have h2 : (n * 10 + digitVal c + 1) * 10 ^ cs.length ≤ (n + 1) * 10 ^ (c :: cs).length := by
      rw [List.length_cons, pow_succ]
      have : n * 10 + digitVal c + 1 ≤ (n + 1) * 10 := by omega
      calc (n * 10 + digitVal c + 1) * 10 ^ cs.length
          ≤ ((n + 1) * 10) * 10 ^ cs.length := Nat.mul_le_mul_right _ this
        _ = (n + 1) * (10 ^ cs.length * 10) := by ring
    omega

theorem valOf_eq_ofDigits (cs : List Char) (n : Nat) :
    valOf cs n = n * 10 ^ cs.length + Nat.ofDigits 10 (cs.reverse.map digitVal) := by
  induction cs generalizing n with
  | nil => simp [valOf_nil]
  | cons c cs ih =>
    rw [valOf_cons, ih]
    simp only [List.reverse_cons, List.map_append, List.map_cons, List.map_nil,
      Nat.ofDigits_append, Nat.ofDigits_singleton, List.length_map, List.length_reverse,
      List.length_cons, pow_succ]
    ring

theorem decimalNumeral_eq (cs : List Char) :
    decimalNumeral cs = if cs ≠ [] ∧ cs.all isDecimal = true then some (valOf cs 0) else none := by
  unfold decimalNumeral
  simp [valOf_eq_ofDigits]

theorem atoiFastLoop_eq (cs : List Char) (n : Nat) :
    atoiFastLoop cs n = if cs.all isDecimal = true then some (valOf cs n) else none := by
  induction cs generalizing n with
  | nil => simp [atoiFastLoop, valOf_nil]
  | cons c cs ih =>
    unfold atoiFastLoop
    by_cases hc : isDecimal c = true
    · simp [hc, ih, valOf_cons]
    · simp [hc]

theorem parseUintLoop_digits (maxVal : Nat) (hm : maxVal < 2 ^ 64) (cs : List Char) (n : Nat)
    (hn : n ≤ maxVal) (h : cs.all isDecimal = true) :
    parseUintLoop maxVal cs n =
      if valOf cs n ≤ maxVal then (valOf cs n, none) else (maxVal, some .ErrRange) := by
  induction cs generalizing n with
  | nil => simp [parseUintLoop, valOf_nil, hn]
  | cons c cs ih =>
    simp only [List.all_cons, Bool.and_eq_true] at h
    have hd := digitVal_le h.1
    have hge := valOf_ge cs (n * 10 + digitVal c)
    unfold parseUintLoop
    rw [valOf_cons]
    simp only [h.1, if_true]
    by_cases h1 : n ≥ (2 ^ 64 - 1) / 10 + 1
    · have : ¬ valOf cs (n * 10 + digitVal c) ≤ maxVal := by omega
      rw [if_pos h1, if_neg this]
    · rw [if_neg h1]
      have e10 : (n * 10) % 2 ^ 64 = n * 10 := Nat.mod_eq_of_lt (by omega)
      simp only [e10]
      by_cases h2 : n * 10 + digitVal c < 2 ^ 64
      · have e1 : (n * 10 + digitVal c) % 2 ^ 64 = n * 10 + digitVal c := Nat.mod_eq_of_lt h2
        simp only [e1]
        by_cases h3 : n * 10 + digitVal c > maxVal
        · have : ¬ valOf cs (n * 10 + digitVal c) ≤ maxVal := by omega
          rw [if_pos (Or.inr h3), if_neg this]
        · have h4 : ¬ (n * 10 + digitVal c < n * 10 ∨ n * 10 + digitVal c > maxVal) := by omega
          rw [if_neg h4]
          exact ih _ (by omega) h.2
      · have e1 : (n * 10 + digitVal c) % 2 ^ 64 < n * 10 := by omega
        have : ¬ valOf cs (n * 10 + digitVal c) ≤ maxVal := by omega
        rw [if_pos (Or.inl e1), if_neg this]

theorem parseUintLoop_nondigits (maxVal : Nat) (cs : List Char) (n : Nat)
    (h : ¬ cs.all isDecimal = true) :
    parseUintLoop maxVal cs n = (0, some .ErrSyntax) ∨
      parseUintLoop maxVal cs n = (maxVal, some .ErrRange) := by
  induction cs generalizing n with
  | nil => simp at h
  | cons c cs ih =>
    unfold parseUintLoop
    by_cases hc : isDecimal c = true
    · simp only [hc, if_true]
      have hcs : ¬ cs.all isDecimal = true := by
        intro h'
        exact h (by simp [hc, h'])
      split
      · exact Or.inr rfl
      · split
        · exact Or.inr rfl
        · exact ih _ hcs
    · simp [hc]

theorem ParseUint_cases (w : IntSize) (body : List Char) :
    (body ≠ [] ∧ body.all isDecimal = true ∧ valOf body 0 ≤ 2 ^ w.bits - 1 ∧
        ParseUint w body = (valOf body 0, none)) ∨
    (body ≠ [] ∧ body.all isDecimal = true ∧ ¬ valOf body 0 ≤ 2 ^ w.bits - 1 ∧
        ParseUint w body = (2 ^ w.bits - 1, some .ErrRange)) ∨
    (¬ (body ≠ [] ∧ body.all isDecimal = true) ∧
        (ParseUint w body = (0, some .ErrSyntax) ∨
          ParseUint w body = (2 ^ w.bits - 1, some .ErrRange))) := by
  have hm : 2 ^ w.bits - 1 < 2 ^ 64 := by cases w <;> simp [IntSize.bits]
  cases body with
  | nil => exact Or.inr (Or.inr ⟨by simp, Or.inl rfl⟩)
  | cons c cs =>
    have hP : ParseUint w (c :: cs) = parseUintLoop (2 ^ w.bits - 1) (c :: cs) 0 := rfl
    by_cases hd : (c :: cs).all isDecimal = true
    · have := parseUintLoop_digits _ hm (c :: cs) 0 (Nat.zero_le _) hd
      by_cases hv : valOf (c :: cs) 0 ≤ 2 ^ w.bits - 1
      · rw [if_pos hv] at this
        exact Or.inl ⟨by simp, hd, hv, hP.trans this⟩
      · rw [if_neg hv] at this
        exact Or.inr (Or.inl ⟨by simp, hd, hv, hP.trans this⟩)
    · refine Or.inr (Or.inr ⟨fun h => hd h.2, ?_⟩)
      rw [hP]
      exact parseUintLoop_nondigits _ _ _ hd

theorem parsesBase10_eq (s : String) : parsesBase10 s = signedVal s.toList := by
  unfold parsesBase10 signedVal
  generalize s.toList = cs
  split
  · rfl
  · next ds => simp
  · next ds h1 h2 =>
    cases cs with
    | nil => simp [decimalNumeral]
    | cons c rest =>
      have hm : c ≠ '-' := fun e => h1 rest (by rw [e])
      have hp : c ≠ '+' := fun e => h2 rest (by rw [e])
      simp [hm, hp]

theorem ParseInt_cons (w : IntSize) (c : Char) (rest : List Char) :
    ParseInt w (c :: rest) =
      parseIntCore w (c == '-') (if c == '+' || c == '-' then rest else c :: rest) := rfl

theorem parseIntCore_iff (w : IntSize) (neg : Bool) (body : List Char) (v : Int) :
    parseIntCore w neg body = (v, none) ↔
      ∃ u : Nat, decimalNumeral body = some u ∧
        v = (if neg then -(u : Int) else (u : Int)) ∧ inRange w v := by
  rw [decimalNumeral_eq]
  unfold parseIntCore inRange
  rcases ParseUint_cases w body with ⟨h1, h2, h3, h4⟩ | ⟨h1, h2, h3, h4⟩ | ⟨h1, h2 | h2⟩
  · rw [h4, if_pos ⟨h1, h2⟩]
    generalize valOf body 0 = u at *
    cases w <;> cases neg <;> simp [IntSize.bits] at h3 ⊢ <;>
      (split_ifs <;> simp <;> omega)
  · rw [h4, if_pos ⟨h1, h2⟩]
    generalize valOf body 0 = u at *
    cases w <;> cases neg <;> simp [IntSize.bits] at h3 ⊢ <;> omega
  · rw [h2, if_neg h1]
    simp
  · rw [h2, if_neg h1]
    cases w <;> cases neg <;> simp [IntSize.bits]

theorem ParseInt_iff (w : IntSize) (cs : List Char) (v : Int) :
    ParseInt w cs = (v, none) ↔ signedVal cs = some v ∧ inRange w v := by
  cases cs with
  | nil => simp [ParseInt, signedVal]
  | cons c rest =>
    rw [ParseInt_cons, parseIntCore_iff]
    simp only [signedVal]
    by_cases hm : c = '-'
    · subst hm
      simp only [if_true]
      constructor
      · rintro ⟨u, h1, h2, h3⟩
        simp at h1 h2
        exact ⟨by simp [h1, h2], h3⟩
      · rintro ⟨h1, h3⟩
        cases hd : decimalNumeral rest with
        | none => simp [hd] at h1
        | some u =>
          simp [hd] at h1
          exact ⟨u, by simpa using hd, by simp [h1], h3⟩
    · by_cases hp : c = '+'
      · subst hp
        constructor
        · rintro ⟨u, h1, h2, h3⟩
          simp at h1 h2
          exact ⟨by simp [h1, h2], h3⟩
        · rintro ⟨h1, h3⟩
          cases hd : decimalNumeral rest with
          | none => simp [hd] at h1
          | some u =>
            simp [hd] at h1
            exact ⟨u, by simpa using hd, by simp [h1], h3⟩
      · have hb : (if (c == '+' || c == '-') = true then rest else c :: rest) = c :: rest := by
          simp [hm, hp]
        have hn : (c == '-') = false := by simp [hm]
        rw [hb, hn, if_neg hm, if_neg hp]
        constructor
        · rintro ⟨u, h1, h2, h3⟩
          simp at h2
          exact ⟨by simp [h1, h2], h3⟩
        · rintro ⟨h1, h3⟩
          cases hd : decimalNumeral (c :: rest) with
          | none => simp [hd] at h1
          | some u =>
            simp [hd] at h1
            exact ⟨u, rfl, by simp [h1], h3⟩

theorem fast_inRange (w : IntSize) (body : List Char) (k : Nat)
    (hk : body.length ≤ k) (hw : 10 ^ k ≤ 2 ^ (w.bits - 1))
    (hd : body.all isDecimal = true) (neg : Bool) :
    inRange w (if neg then -(valOf body 0 : Int) else (valOf body 0 : Int)) := by
  have h1 := valOf_lt body 0 hd
  have h2 : 10 ^ body.length ≤ 10 ^ k := Nat.pow_le_pow_right (by norm_num) hk
  have h3 : valOf body 0 < 2 ^ (w.bits - 1) := by omega
  have h4 : ((valOf body 0 : Nat) : Int) < (2 ^ (w.bits - 1) : Int) := by exact_mod_cast h3
  unfold inRange
  cases neg <;> simp <;> omega

theorem Atoi_eq (w : IntSize) (s : String) :
    Atoi w s =
      if (w = .w32 ∧ 0 < s.toList.length ∧ s.toList.length < 10) ∨
          (w = .w64 ∧ 0 < s.toList.length ∧ s.toList.length < 19) then
        atoiFast s.toList
      else ParseInt w s.toList := rfl

theorem atoiFast_cons (c : Char) (rest : List Char) :
    atoiFast (c :: rest) =
      fastTail (c == '-' || c == '+') (c == '-')
        (if (c == '-' || c == '+') = true then rest else c :: rest) := rfl

theorem fastTail_iff (signed neg : Bool) (body : List Char) (v : Int)
    (hne : body = [] → signed = true)
    (w : IntSize) (k : Nat) (hk : body.length ≤ k)
    (hw : 10 ^ k ≤ 2 ^ (w.bits - 1)) :
    fastTail signed neg body = (v, none) ↔
      Option.map (fun (u : Nat) => if neg then -(u : Int) else (u : Int)) (decimalNumeral body)
        = some v ∧ inRange w v := by
  simp only [fastTail, atoiFastLoop_eq, decimalNumeral_eq]
  by_cases he : body = []
  · have h2 := hne he
    subst he
    simp [h2]
  · have he2 : body.isEmpty = false := by
      cases body with
      | nil => exact absurd rfl he
      | cons a b => rfl
    by_cases hd : body.all isDecimal = true
    · have hr := fast_inRange w body k hk hw hd neg
      simp only [he2, hd, Bool.and_false, Bool.false_eq_true, if_false, if_true, ne_eq, he,
        not_false_eq_true, and_self, Option.map_some', Option.some.injEq]
      constructor
      · intro h
        have hv : v = if neg = true then -(valOf body 0 : Int) else (valOf body 0 : Int) := by
          simpa using (congrArg Prod.fst h).symm
        exact ⟨hv.symm, hv ▸ hr⟩
      · rintro ⟨h, -⟩
        rw [← h]
    · simp [he2, hd]

theorem atoiFast_iff (w : IntSize) (cs : List Char) (k : Nat) (hk : cs.length ≤ k)
    (hw : 10 ^ k ≤ 2 ^ (w.bits - 1)) (v : Int) :
    atoiFast cs = (v, none) ↔ signedVal cs = some v ∧ inRange w v := by
  cases cs with
  | nil => simp [atoiFast, signedVal]
  | cons c rest =>
    have hk2 : rest.length ≤ k := by simp at hk; omega
    rw [atoiFast_cons]
    simp only [signedVal]
    by_cases hm : c = '-'
    · subst hm
      have e1 : (('-' : Char) == '-' || ('-' : Char) == '+') = true := by decide
      have e2 : (('-' : Char) == '-') = true := by decide
      rw [e1, e2, if_pos rfl, fastTail_iff true true rest v (fun _ => rfl) w k hk2 hw]
      simp
    · by_cases hp : c = '+'
      · subst hp
        have e1 : (('+' : Char) == '-' || ('+' : Char) == '+') = true := by decide
        have e2 : (('+' : Char) == '-') = false := by decide
        rw [e1, e2, if_pos rfl, fastTail_iff true false rest v (fun _ => rfl) w k hk2 hw]
        simp
      · have e1 : (c == '-' || c == '+') = false := by simp [hm, hp]
        have e2 : (c == '-') = false := by simp [hm]
        rw [e1, e2, if_neg (by simp),
          fastTail_iff false false (c :: rest) v (fun h => by simp at h) w k hk hw]
        simp [hm, hp]

theorem Atoi_iff (w : IntSize) (s : String) (v : Int) :
    Atoi w s = (v, none) ↔ parsesBase10 s = some v ∧ inRange w v := by
  rw [Atoi_eq, parsesBase10_eq]
  split
  · next h =>
    rcases h with ⟨hw, -, hl⟩ | ⟨hw, -, hl⟩
    · subst hw
      exact atoiFast_iff _ _ 9 (by omega) (by norm_num [IntSize.bits]) v
    · subst hw
      exact atoiFast_iff _ _ 18 (by omega) (by norm_num [IntSize.bits]) v
  · exact ParseInt_iff w _ v

/-! ## The annotation interpreter -/

theorem getCaptureCount_present (w : IntSize) (pod : Pod) (s : String)
    (h : pod.Annotations "tcpdump.antrea.io" = some s) :
    getCaptureCount w pod =
      if (Atoi w s).2 ≠ none ∨ (Atoi w s).1 ≤ 0 then
        (0, true, some (.errorf "invalid tcpdump.antrea.io value: %q" s))
      else ((Atoi w s).1, true, none) := by
  simp only [getCaptureCount, h]

theorem getCaptureCount_absent (w : IntSize) (pod : Pod)
    (h : pod.Annotations "tcpdump.antrea.io" = none) :
    getCaptureCount w pod = (0, false, none) := by
  simp only [getCaptureCount, h]

/-- C1 (as amended): without the annotation getCaptureCount returns
(0, false, nil); with the annotation value `s` it returns (n, true, nil)
exactly when `s` parses as a base-10 integer `n` with `0 < n` that fits the
Go type int (`n < 2^(bits-1)`), and in every other case it returns
(0, true, err) with the non-nil error built from `s`. -/
theorem getCaptureCount_spec (w : IntSize) (pod : Pod) :
    match pod.Annotations "tcpdump.antrea.io" with
    | none => getCaptureCount w pod = (0, false, none)
    | some s =>
      (∀ n : Int, getCaptureCount w pod = (n, true, none) ↔
          (parsesBase10 s = some n ∧ 0 < n ∧ n < 2 ^ (w.bits - 1))) ∧
      ((∃ n : Int, parsesBase10 s = some n ∧ 0 < n ∧ n < 2 ^ (w.bits - 1)) ∨
          getCaptureCount w pod =
            (0, true, some (.errorf "invalid tcpdump.antrea.io value: %q" s))) := by
  cases h : pod.Annotations "tcpdump.antrea.io" with
  | none => exact getCaptureCount_absent w pod h
  | some s =>
    simp only []
    rw [getCaptureCount_present w pod s h]
    rcases hA : Atoi w s with ⟨v, err⟩
    cases err with
    | some e =>
      have hno : ∀ n : Int, ¬ (parsesBase10 s = some n ∧ 0 < n ∧ n < 2 ^ (w.bits - 1)) := by
        rintro n ⟨h1, h2, h3⟩
        have hr : inRange w n := ⟨by have : (0 : Int) < 2 ^ (w.bits - 1) := by positivity
                                     omega, h3⟩
        have := (Atoi_iff w s n).2 ⟨h1, hr⟩
        rw [hA] at this
        simp at this
      refine ⟨fun n => ⟨fun hc => ?_, fun hc => absurd hc (hno n)⟩, Or.inr ?_⟩
      · simp at hc
      · simp
    | none =>
      obtain ⟨hp, hr⟩ := (Atoi_iff w s v).1 hA
      by_cases hv : v ≤ 0
      · refine ⟨fun n => ⟨fun hc => ?_, ?_⟩, Or.inr ?_⟩
        · simp [hv] at hc
        · rintro ⟨h1, h2, -⟩
          rw [hp] at h1
          have : v = n := by simpa using h1
          omega
        · simp [hv]
      · refine ⟨fun n => ⟨fun hc => ?_, ?_⟩, Or.inl ⟨v, hp, by omega, hr.2⟩⟩
        · have hn : v = n := by simpa [hv] using hc
          subst hn
          exact ⟨hp, by omega, hr.2⟩
        · rintro ⟨h1, -, -⟩
          rw [hp] at h1
          have : v = n := by simpa using h1
          subst this
          simp [hv]

/-- C1 (counterexample to the claim as stated): the annotation value
"9223372036854775808" parses as the base-10 integer 2^63, which is greater
than zero, yet getCaptureCount returns (0, true, err), for a 64-bit and for a
32-bit int alike. -/
theorem getCaptureCount_rejects_large_numeral :
    parsesBase10 "9223372036854775808" = some 9223372036854775808 ∧
    (0 : Int) < 9223372036854775808 ∧
    getCaptureCount .w64 (podWith "default" "web" "node1" "9223372036854775808") =
      (0, true, some (.errorf "invalid tcpdump.antrea.io value: %q" "9223372036854775808")) ∧
    getCaptureCount .w32 (podWith "default" "web" "node1" "9223372036854775808") =
      (0, true, some (.errorf "invalid tcpdump.antrea.io value: %q" "9223372036854775808")) := by
  decide

/-! ## Reading the trace: append lemmas -/

theorem spawned_append (a b : List Event) : spawned (a ++ b) = spawned a ++ spawned b := by
  induction a with
  | nil => rfl
  | cons e a ih =>
    cases e with
    | start argv proc err =>
      cases proc with
      | none => simpa [spawned] using ih
      | some p => simp [spawned, ih]
    | printf f args => simpa [spawned] using ih
    | kill p err => simpa [spawned] using ih
    | remove file err => simpa [spawned] using ih

theorem startAttempts_append (a b : List Event) :
    startAttempts (a ++ b) = startAttempts a ++ startAttempts b := by
  induction a with
  | nil => rfl
  | cons e a ih => cases e <;> simp [startAttempts, ih]

theorem killAttempts_append (a b : List Event) :
    killAttempts (a ++ b) = killAttempts a ++ killAttempts b := by
  induction a with
  | nil => rfl
  | cons e a ih => cases e <;> simp [killAttempts, ih]

theorem removeAttempts_append (a b : List Event) :
    removeAttempts (a ++ b) = removeAttempts a ++ removeAttempts b := by
  induction a with
  | nil => rfl
  | cons e a ih => cases e <;> simp [removeAttempts, ih]

theorem errorLines_append (a b : List Event) :
    errorLines (a ++ b) = errorLines a ++ errorLines b := by
  induction a with
  | nil => rfl
  | cons e a ih =>
    cases e with
    | printf f args =>
      by_cases hf : isErrorFormat f = true
      · simp [errorLines, hf, ih]
      · simp [errorLines, hf, ih]
    | start argv proc err => simpa [errorLines] using ih
    | kill p err => simpa [errorLines] using ih
    | remove file err => simpa [errorLines] using ih

theorem eventsSince_emit (st : State) (evs : List Event) :
    eventsSince st (st.emit evs) = evs := by
  simp [eventsSince, State.emit]

theorem eventsSince_of_trace (st0 st1 : State) (evs : List Event)
    (h : st1.trace = st0.trace ++ evs) : eventsSince st0 st1 = evs := by
  simp [eventsSince, h]

/-! ## The removal loop -/

/-- The events one iteration of the removal loop adds. -/
theorem removeStep_eq (os : OS) (base : String) (tr : List Event) (i : Nat) :
    ∃ evs, removeStep os base tr i = tr ++ evs ∧
      removeAttempts evs = [rotatedFile base i] ∧ spawned evs = [] ∧
      startAttempts evs = [] ∧ killAttempts evs = [] ∧ errorLines evs = [] := by
  simp only [removeStep]
  cases h : os.Remove tr.length (rotatedFile base i) with
  | none =>
    have hp : isErrorFormat "[PCAP DELETED] %s\n" = false := by decide
    exact ⟨[.remove (rotatedFile base i) none,
      .printf "[PCAP DELETED] %s\n" [.str (rotatedFile base i)]], rfl, rfl, rfl, rfl, rfl,
      by simp [errorLines, hp]⟩
  | some e =>
    exact ⟨[.remove (rotatedFile base i) (some e)], rfl, rfl, rfl, rfl, rfl, rfl⟩

theorem removeLoop_eq (os : OS) (base : String) (l : List Nat) (tr : List Event) :
    ∃ evs, l.foldl (removeStep os base) tr = tr ++ evs ∧
      removeAttempts evs = l.map (rotatedFile base) ∧ spawned evs = [] ∧
      startAttempts evs = [] ∧ killAttempts evs = [] ∧ errorLines evs = [] := by
  induction l generalizing tr with
  | nil => exact ⟨[], by simp, rfl, rfl, rfl, rfl, rfl⟩
  | cons i l ih =>
    obtain ⟨e1, h1, r1, s1, a1, k1, x1⟩ := removeStep_eq os base tr i
    obtain ⟨e2, h2, r2, s2, a2, k2, x2⟩ := ih (removeStep os base tr i)
    refine ⟨e1 ++ e2, ?_, ?_, ?_, ?_, ?_, ?_⟩
    · rw [List.foldl_cons, h2, h1, List.append_assoc]
    · rw [removeAttempts_append, r1, r2]; rfl
    · rw [spawned_append, s1, s2]; rfl
    · rw [startAttempts_append, a1, a2]; rfl
    · rw [killAttempts_append, k1, k2]; rfl
    · rw [errorLines_append, x1, x2]; rfl

/-! ## startCapture and stopCapture, case by case -/

theorem startCapture_tracked (os : OS) (pod : Pod) (n : Int) (st : State) (info : captureInfo)
    (h : st.captureProcs (podKey pod) = some info) :
    startCapture os pod n st =
      st.emit [.printf "[INFO] capture already running for %s\n" [.str (podKey pod)]] := by
  simp only [startCapture, h]

theorem startCapture_ok (os : OS) (pod : Pod) (n : Int) (st : State) (p : Process)
    (h : st.captureProcs (podKey pod) = none)
    (hs : os.Start st.trace.length (tcpdumpArgs pod n) = .ok p) :
    startCapture os pod n st =
      { captureProcs := fun k =>
          if k = podKey pod then some { cmd := { Args := tcpdumpArgs pod n, Proc := p }, n := n }
          else st.captureProcs k,
        trace := st.trace ++ [.start (tcpdumpArgs pod n) (some p) none,
          .printf "[CAPTURE RUNNING] %s -> %s\n" [.str (podKey pod), .str (pcapBase pod.Name)]] } := by
  simp only [startCapture, h, hs]

theorem startCapture_fail (os : OS) (pod : Pod) (n : Int) (st : State) (e : GoError)
    (h : st.captureProcs (podKey pod) = none)
    (hs : os.Start st.trace.length (tcpdumpArgs pod n) = .error e) :
    startCapture os pod n st =
      st.emit [.start (tcpdumpArgs pod n) none (some e),
        .printf "[ERROR] failed to start tcpdump for %s: %v\n" [.str (podKey pod), .err e]] := by
  simp only [startCapture, h, hs]

theorem stopCapture_untracked (os : OS) (pod : Pod) (st : State)
    (h : st.captureProcs (podKey pod) = none) :
    stopCapture os pod st =
      st.emit [.printf "[INFO] no running capture for %s\n" [.str (podKey pod)]] := by
  simp only [stopCapture, h]

/-- What stopCapture does to a tracked entry: the registry loses exactly that
entry, and the new events are one kill attempt on the stored process and one
removal attempt per index below the stored count, never a start. -/
theorem stopCapture_tracked (os : OS) (pod : Pod) (st : State) (info : captureInfo)
    (h : st.captureProcs (podKey pod) = some info) :
    (stopCapture os pod st).captureProcs =
        (fun k => if k = podKey pod then none else st.captureProcs k) ∧
    ∃ evs, (stopCapture os pod st).trace = st.trace ++ evs ∧
      killAttempts evs = [info.cmd.Proc] ∧
      removeAttempts evs = (List.range info.n.toNat).map (rotatedFile (pcapBase pod.Name)) ∧
      spawned evs = [] ∧ startAttempts evs = [] := by
  simp only [stopCapture, h]
  refine ⟨trivial, ?_⟩
  generalize os.Kill st.trace.length info.cmd.Proc = killErr
  obtain ⟨evs, h1, r1, s1, a1, k1, -⟩ := removeLoop_eq os (pcapBase pod.Name)
    (List.range info.n.toNat)
    (st.trace ++ [.kill info.cmd.Proc killErr] ++
      (match killErr with
       | some e => [.printf "[ERROR] failed to stop tcpdump for %s: %v\n"
            [.str (podKey pod), .err e]]
       | none => []))
  rw [h1]
  refine ⟨_, by simp only [List.append_assoc]; rfl, ?_, ?_, ?_, ?_⟩
  all_goals
    cases killErr <;>
      simp [killAttempts_append, removeAttempts_append, spawned_append, startAttempts_append,
        killAttempts, removeAttempts, spawned, startAttempts, r1, s1, a1, k1]


/-! ## Decimal printing: `%d` read back by `valOf` -/

theorem toDigitsCore_append (fuel n : Nat) (ds : List Char) :
    Nat.toDigitsCore 10 fuel n ds = Nat.toDigitsCore 10 fuel n [] ++ ds := by
  induction fuel generalizing n ds with
  | zero => simp [Nat.toDigitsCore]
  | succ fuel ih =>
    simp only [Nat.toDigitsCore]
    split
    · simp
    · rw [ih (n / 10) (Nat.digitChar (n % 10) :: ds), ih (n / 10) [Nat.digitChar (n % 10)]]
      simp

theorem digitVal_digitChar : ∀ k, k < 10 → digitVal (Nat.digitChar k) = k := by
  decide

theorem valOf_append_single (cs : List Char) (c : Char) (n : Nat) :
    valOf (cs ++ [c]) n = valOf cs n * 10 + digitVal c := by
  simp [valOf, List.foldl_append]

theorem valOf_toDigitsCore (fuel n : Nat) (h : n < fuel) :
    valOf (Nat.toDigitsCore 10 fuel n []) 0 = n := by
  induction fuel generalizing n with
  | zero => omega
  | succ fuel ih =>
    simp only [Nat.toDigitsCore]
    have hd := digitVal_digitChar (n % 10) (Nat.mod_lt _ (by norm_num))
    split
    · next h0 =>
      simp only [valOf, List.foldl_cons, List.foldl_nil, hd]
      omega
    · next h0 =>
      rw [toDigitsCore_append, valOf_append_single, ih (n / 10) (by omega), hd]
      omega

theorem valOf_toString (n : Nat) : valOf (toString n).toList 0 = n := by
  show valOf (Nat.toDigitsCore 10 (n + 1) n []) 0 = n
  exact valOf_toDigitsCore (n + 1) n (by omega)

theorem toString_nat_injective {a b : Nat} (h : toString a = toString b) : a = b := by
  have h1 : valOf (toString a).toList 0 = valOf (toString b).toList 0 := by rw [h]
  rwa [valOf_toString, valOf_toString] at h1

theorem rotatedFile_injective (base : String) {i j : Nat}
    (h : rotatedFile base i = rotatedFile base j) : i = j := by
  have key : ∀ k : Nat, 0 < k → base ++ toString k ≠ base := by
    intro k hk he
    have h1 := congrArg String.toList he
    simp only [String.toList, String.data_append] at h1
    have h2 : (toString k).data = [] := by simpa using h1
    have h3 := valOf_toString k
    simp only [String.toList, h2, valOf_nil] at h3
    omega
  unfold rotatedFile at h
  by_cases hi : i > 0 <;> by_cases hj : j > 0
  · rw [if_pos hi, if_pos hj] at h
    have h1 := congrArg String.toList h
    simp only [String.toList, String.data_append, List.append_cancel_left_eq] at h1
    exact toString_nat_injective (String.ext h1)
  · rw [if_pos hi, if_neg hj] at h
    exact absurd h (key i hi)
  · rw [if_neg hi, if_pos hj] at h
    exact absurd h.symm (key j hj)
  · omega

theorem rotatedFiles_nodup (base : String) (n : Nat) :
    ((List.range n).map (rotatedFile base)).Nodup :=
  (List.nodup_range n).map (fun _ _ h => rotatedFile_injective base h)

theorem rotatedFiles_eq (base : String) (n : Nat) (hn : 0 < n) :
    (List.range n).map (rotatedFile base) =
      base :: (List.range' 1 (n - 1)).map (fun i => base ++ toString i) := by
  obtain ⟨m, rfl⟩ : ∃ m, n = m + 1 := ⟨n - 1, by omega⟩
  rw [List.range_succ_eq_map, List.map_cons, List.map_map, Nat.add_sub_cancel,
    List.range'_eq_map_range, List.map_map]
  have h0 : rotatedFile base 0 = base := rfl
  rw [h0]
  congr 1
  apply List.map_congr_left
  intro a _
  simp [rotatedFile, Nat.add_comm]


/-! ## The add handler -/

/-- AddFunc never changes the registry and never calls the operating system. -/
theorem AddFunc_frame (w : IntSize) (nodeName : String) (pod : Pod) (st : State) :
    (AddFunc w nodeName pod st).captureProcs = st.captureProcs ∧
    startAttempts (eventsSince st (AddFunc w nodeName pod st)) = [] ∧
    killAttempts (eventsSince st (AddFunc w nodeName pod st)) = [] ∧
    removeAttempts (eventsSince st (AddFunc w nodeName pod st)) = [] := by
  unfold AddFunc
  have h0 : eventsSince st st = [] := by simp [eventsSince]
  split
  · exact ⟨rfl, by rw [h0]; rfl, by rw [h0]; rfl, by rw [h0]; rfl⟩
  · split
    · rw [eventsSince_emit]
      exact ⟨rfl, rfl, rfl, rfl⟩
    · split
      · rw [eventsSince_emit]
        exact ⟨rfl, rfl, rfl, rfl⟩
      · exact ⟨rfl, by rw [h0]; rfl, by rw [h0]; rfl, by rw [h0]; rfl⟩

/-- C2 (the code at the failing input): the pod default/web on node1 carries
the annotation value "3", which yields Active(3); nothing is tracked for it and
every spawn would succeed.  Handling its add notification only prints the
`[CAPTURE REQUESTED]` line: no entry is tracked afterwards and no process is
spawned.  The update handler, given the same pod as the new snapshot of an
update from the unannotated pod, does start the capture with count 3. -/
theorem AddFunc_sample_starts_nothing :
    samplePod.NodeName = "node1" ∧
    getCaptureCount .w64 samplePod = (3, true, none) ∧
    State.init.captureProcs (podKey samplePod) = none ∧
    (AddFunc .w64 "node1" samplePod State.init).captureProcs (podKey samplePod) = none ∧
    (AddFunc .w64 "node1" samplePod State.init).trace =
      [.printf "[CAPTURE REQUESTED] %s/%s N=%d\n" [.str "default", .str "web", .int 3]] ∧
    spawned (AddFunc .w64 "node1" samplePod State.init).trace = [] ∧
    (UpdateFunc .w64 OS.allOk "node1" (podBare "default" "web" "node1") samplePod
        State.init).captureProcs (podKey samplePod) =
      some (entryFor samplePod 3 { Pid := 1 }) := by
  decide

/-! ## Start and stop -/

/-- C3: from a registry without an entry for the pod and with the spawn
succeeding, startCapture(pod, n) followed by startCapture(pod, m) leaves the
registry as the first call made it: one entry for the pod, with count n and the
process of the first call, every other key as before.  Over both calls one
process is spawned (one start attempt, for n); the second call only prints
the duplicate notice. -/
theorem startCapture_idempotent (os : OS) (pod : Pod) (n m : Int) (st : State) (p : Process)
    (h0 : st.captureProcs (podKey pod) = none)
    (hs : os.Start st.trace.length (tcpdumpArgs pod n) = .ok p) :
    (startCapture os pod m (startCapture os pod n st)).captureProcs =
        (startCapture os pod n st).captureProcs ∧
    (startCapture os pod m (startCapture os pod n st)).captureProcs (podKey pod) =
        some (entryFor pod n p) ∧
    (∀ k, k ≠ podKey pod →
        (startCapture os pod m (startCapture os pod n st)).captureProcs k = st.captureProcs k) ∧
    spawned (eventsSince st (startCapture os pod m (startCapture os pod n st))) = [p] ∧
    startAttempts (eventsSince st (startCapture os pod m (startCapture os pod n st))) =
        [tcpdumpArgs pod n] ∧
    eventsSince (startCapture os pod n st) (startCapture os pod m (startCapture os pod n st)) =
        [.printf "[INFO] capture already running for %s\n" [.str (podKey pod)]] := by
  have h1 := startCapture_ok os pod n st p h0 hs
  have hk : (startCapture os pod n st).captureProcs (podKey pod) = some (entryFor pod n p) := by
    rw [h1]; simp [entryFor]
  have h2 := startCapture_tracked os pod m (startCapture os pod n st) _ hk
  refine ⟨by rw [h2]; rfl, by rw [h2]; exact hk, ?_, ?_, ?_, by rw [h2, eventsSince_emit]⟩
  · intro k hne
    rw [h2, h1]
    simp [State.emit, hne]
  · rw [h2, h1]
    simp [eventsSince, State.emit, spawned]
  · rw [h2, h1]
    simp [eventsSince, State.emit, startAttempts]

/-- C3 (witness): two starts of default/web, for 3 and then 5 files, on a system
where every call succeeds. -/
theorem startCapture_idempotent_witness :
    State.init.captureProcs (podKey samplePod) = none ∧
    OS.allOk.Start State.init.trace.length (tcpdumpArgs samplePod 3) = .ok { Pid := 0 } ∧
    (startCapture OS.allOk samplePod 5 (startCapture OS.allOk samplePod 3 State.init)).captureProcs
        (podKey samplePod) = some (entryFor samplePod 3 { Pid := 0 }) ∧
    spawned (eventsSince State.init
        (startCapture OS.allOk samplePod 5 (startCapture OS.allOk samplePod 3 State.init))) =
      [{ Pid := 0 }] :=
  ⟨rfl, rfl,
    (startCapture_idempotent OS.allOk samplePod 3 5 State.init { Pid := 0 } rfl rfl).2.1,
    (startCapture_idempotent OS.allOk samplePod 3 5 State.init { Pid := 0 } rfl rfl).2.2.2.1⟩

/-- C4: for a pod without a tracked entry stopCapture changes nothing in the
registry and only prints the `[INFO] no running capture` line: no kill and no
file removal is attempted and no error line is printed. -/
theorem stopCapture_untracked_noop (os : OS) (pod : Pod) (st : State)
    (h : st.captureProcs (podKey pod) = none) :
    (stopCapture os pod st).captureProcs = st.captureProcs ∧
    eventsSince st (stopCapture os pod st) =
        [.printf "[INFO] no running capture for %s\n" [.str (podKey pod)]] ∧
    killAttempts (eventsSince st (stopCapture os pod st)) = [] ∧
    removeAttempts (eventsSince st (stopCapture os pod st)) = [] ∧
    errorLines (eventsSince st (stopCapture os pod st)) = [] := by
  rw [stopCapture_untracked os pod st h, eventsSince_emit]
  have hp : isErrorFormat "[INFO] no running capture for %s\n" = false := by decide
  exact ⟨rfl, rfl, rfl, rfl, by simp [errorLines, hp]⟩

/-- C4 (witness): stopping default/web at controller start, on a system where
every call would fail. -/
theorem stopCapture_untracked_noop_witness :
    State.init.captureProcs (podKey samplePod) = none ∧
    eventsSince State.init (stopCapture OS.allFail samplePod State.init) =
      [.printf "[INFO] no running capture for %s\n" [.str "default/web"]] :=
  ⟨rfl, (stopCapture_untracked_noop OS.allFail samplePod State.init rfl).2.1⟩

/-- C5: for n > 0, after a successful startCapture(pod, n) the following
stopCapture(pod) attempts the removal of exactly the files
/captures/capture-NAME.pcap and /captures/capture-NAME.pcapI for I = 1 .. n-1
(I in decimal), in this order: n attempts in all, no file twice, whatever the
outcome of the kill and of each removal. -/
theorem start_stop_removes_n_files (os : OS) (pod : Pod) (n : Int) (st : State) (p : Process)
    (hn : 0 < n)
    (h0 : st.captureProcs (podKey pod) = none)
    (hs : os.Start st.trace.length (tcpdumpArgs pod n) = .ok p) :
    removeAttempts (eventsSince (startCapture os pod n st)
        (stopCapture os pod (startCapture os pod n st))) =
      ("/captures/capture-" ++ pod.Name ++ ".pcap") ::
        (List.range' 1 (n.toNat - 1)).map
          (fun i => "/captures/capture-" ++ pod.Name ++ ".pcap" ++ toString i) ∧
    ((removeAttempts (eventsSince (startCapture os pod n st)
        (stopCapture os pod (startCapture os pod n st)))).length : Int) = n ∧
    (removeAttempts (eventsSince (startCapture os pod n st)
        (stopCapture os pod (startCapture os pod n st)))).Nodup := by
  have h1 := startCapture_ok os pod n st p h0 hs
  have hk : (startCapture os pod n st).captureProcs (podKey pod) = some (entryFor pod n p) := by
    rw [h1]; simp [entryFor]
  obtain ⟨-, evs, ht, -, hr, -, -⟩ := stopCapture_tracked os pod (startCapture os pod n st) _ hk
  rw [eventsSince_of_trace _ _ evs ht, hr]
  have hn' : 0 < n.toNat := by omega
  refine ⟨rotatedFiles_eq _ _ hn', ?_, rotatedFiles_nodup _ _⟩
  simp only [entryFor, List.length_map, List.length_range]
  omega

/-- C5 (witness): start of 3 files for default/web and stop, every removal
failing. -/
theorem start_stop_removes_n_files_witness :
    (0 : Int) < 3 ∧
    State.init.captureProcs (podKey samplePod) = none ∧
    OS.startOnly.Start State.init.trace.length (tcpdumpArgs samplePod 3) = .ok { Pid := 0 } ∧
    removeAttempts (eventsSince (startCapture OS.startOnly samplePod 3 State.init)
        (stopCapture OS.startOnly samplePod (startCapture OS.startOnly samplePod 3 State.init))) =
      ["/captures/capture-web.pcap", "/captures/capture-web.pcap1",
        "/captures/capture-web.pcap2"] :=
  ⟨by decide, rfl, rfl,
    (start_stop_removes_n_files OS.startOnly samplePod 3 State.init { Pid := 0 }
      (by decide) rfl rfl).1⟩


/-! ## Events of one start and of one stop -/

theorem stopCapture_clears (os : OS) (pod : Pod) (st : State) :
    (stopCapture os pod st).captureProcs (podKey pod) = none := by
  cases h : st.captureProcs (podKey pod) with
  | none => rw [stopCapture_untracked os pod st h]; exact h
  | some info =>
    rw [(stopCapture_tracked os pod st info h).1]
    simp

/-- The events of one stopCapture, tracked or not: never a start, a kill only
on the stored process, removals only of the stored entry's files. -/
theorem stopCapture_events (os : OS) (pod : Pod) (st : State) :
    ∃ evs, (stopCapture os pod st).trace = st.trace ++ evs ∧
      startAttempts evs = [] ∧ spawned evs = [] ∧
      killAttempts evs =
        (match st.captureProcs (podKey pod) with
         | some info => [info.cmd.Proc]
         | none => []) ∧
      removeAttempts evs =
        (match st.captureProcs (podKey pod) with
         | some info => (List.range info.n.toNat).map (rotatedFile (pcapBase pod.Name))
         | none => []) := by
  cases h : st.captureProcs (podKey pod) with
  | none =>
    rw [stopCapture_untracked os pod st h]
    exact ⟨_, rfl, rfl, rfl, rfl, rfl⟩
  | some info =>
    obtain ⟨-, evs, ht, hk, hr, hs, ha⟩ := stopCapture_tracked os pod st info h
    exact ⟨evs, ht, ha, hs, hk, hr⟩

/-- The events of one startCapture on an untracked pod: one start attempt with
the tcpdump arguments, no kill, no removal. -/
theorem startCapture_untracked_events (os : OS) (pod : Pod) (n : Int) (st : State)
    (h : st.captureProcs (podKey pod) = none) :
    ∃ evs, (startCapture os pod n st).trace = st.trace ++ evs ∧
      startAttempts evs = [tcpdumpArgs pod n] ∧ killAttempts evs = [] ∧
      removeAttempts evs = [] := by
  cases hs : os.Start st.trace.length (tcpdumpArgs pod n) with
  | error e =>
    rw [startCapture_fail os pod n st e h hs]
    exact ⟨_, rfl, rfl, rfl, rfl⟩
  | ok p =>
    rw [startCapture_ok os pod n st p h hs]
    exact ⟨_, rfl, rfl, rfl, rfl⟩

/-! ## The update and delete handlers -/

theorem UpdateFunc_restart (w : IntSize) (os : OS) (nodeName : String) (oldPod newPod : Pod)
    (st : State) (n1 n2 : Int) (hscope : newPod.NodeName = nodeName)
    (ho : getCaptureCount w oldPod = (n1, true, none))
    (hn : getCaptureCount w newPod = (n2, true, none)) (hne : n1 ≠ n2) :
    UpdateFunc w os nodeName oldPod newPod st =
      startCapture os newPod n2 (stopCapture os newPod
        (st.emit [.printf "[CAPTURE UPDATE] %s/%s N=%d\n"
          [.str newPod.Namespace, .str newPod.Name, .int n2]])) := by
  simp [UpdateFunc, hscope, ho, hn, hne]

/-- C6: an in-scope update whose old snapshot yields Active(n1) and whose new
snapshot yields Active(n2), n1 ≠ n2, is one stopCapture followed by one
startCapture with count n2 (after the `[CAPTURE UPDATE]` line): one start
attempt, for n2, a kill only of the process tracked before, and, the spawn
succeeding with process p, the pod is tracked with count n2 afterwards. -/
theorem UpdateFunc_changes_count (w : IntSize) (os : OS) (nodeName : String)
    (oldPod newPod : Pod) (st : State) (n1 n2 : Int) (hscope : newPod.NodeName = nodeName)
    (ho : getCaptureCount w oldPod = (n1, true, none))
    (hn : getCaptureCount w newPod = (n2, true, none)) (hne : n1 ≠ n2) :
    UpdateFunc w os nodeName oldPod newPod st =
      startCapture os newPod n2 (stopCapture os newPod
        (st.emit [.printf "[CAPTURE UPDATE] %s/%s N=%d\n"
          [.str newPod.Namespace, .str newPod.Name, .int n2]])) ∧
    startAttempts (eventsSince st (UpdateFunc w os nodeName oldPod newPod st)) =
      [tcpdumpArgs newPod n2] ∧
    killAttempts (eventsSince st (UpdateFunc w os nodeName oldPod newPod st)) =
      (match st.captureProcs (podKey newPod) with
       | some info => [info.cmd.Proc]
       | none => []) ∧
    (∀ p, os.Start (stopCapture os newPod
          (st.emit [.printf "[CAPTURE UPDATE] %s/%s N=%d\n"
            [.str newPod.Namespace, .str newPod.Name, .int n2]])).trace.length
          (tcpdumpArgs newPod n2) = .ok p →
      (UpdateFunc w os nodeName oldPod newPod st).captureProcs (podKey newPod) =
        some (entryFor newPod n2 p)) := by
  have hU := UpdateFunc_restart w os nodeName oldPod newPod st n1 n2 hscope ho hn hne
  rw [hU]
  generalize hst : st.emit [.printf "[CAPTURE UPDATE] %s/%s N=%d\n"
          [.str newPod.Namespace, .str newPod.Name, .int n2]] = st'
  have ht' : st'.trace = st.trace ++ [.printf "[CAPTURE UPDATE] %s/%s N=%d\n"
          [.str newPod.Namespace, .str newPod.Name, .int n2]] := by rw [← hst]; rfl
  have hc' : st'.captureProcs = st.captureProcs := by rw [← hst]; rfl
  have hclr := stopCapture_clears os newPod st'
  obtain ⟨e1, t1, a1, -, k1, -⟩ := stopCapture_events os newPod st'
  obtain ⟨e2, t2, a2, k2, -⟩ :=
    startCapture_untracked_events os newPod n2 (stopCapture os newPod st') hclr
  have htr : (startCapture os newPod n2 (stopCapture os newPod st')).trace =
      st.trace ++ ([.printf "[CAPTURE UPDATE] %s/%s N=%d\n"
          [.str newPod.Namespace, .str newPod.Name, .int n2]] ++ e1 ++ e2) := by
    rw [t2, t1, ht']; simp only [List.append_assoc]
  refine ⟨rfl, ?_, ?_, ?_⟩
  · rw [eventsSince_of_trace _ _ _ htr, startAttempts_append, startAttempts_append, a1, a2]
    rfl
  · rw [eventsSince_of_trace _ _ _ htr, killAttempts_append, killAttempts_append, k1, k2, hc']
    simp [killAttempts]
  · intro p hp
    rw [startCapture_ok os newPod n2 _ p hclr hp]
    simp [entryFor]

/-- C6 (witness): default/web runs with 3 files and its annotation changes
from "3" to "5". -/
theorem UpdateFunc_changes_count_witness :
    (podWith "default" "web" "node1" "5").NodeName = "node1" ∧
    getCaptureCount .w64 samplePod = (3, true, none) ∧
    getCaptureCount .w64 (podWith "default" "web" "node1" "5") = (5, true, none) ∧
    (3 : Int) ≠ 5 ∧
    (UpdateFunc .w64 OS.allOk "node1" samplePod (podWith "default" "web" "node1" "5")
        (startCapture OS.allOk samplePod 3 State.init)).captureProcs
        (podKey (podWith "default" "web" "node1" "5")) =
      some (entryFor (podWith "default" "web" "node1" "5") 5 { Pid := 11 }) :=
  ⟨rfl, by decide, by decide, by decide,
    (UpdateFunc_changes_count .w64 OS.allOk "node1" samplePod
      (podWith "default" "web" "node1" "5") (startCapture OS.allOk samplePod 3 State.init) 3 5
      rfl (by decide) (by decide) (by decide)).2.2.2 { Pid := 11 } rfl⟩


theorem DeleteFunc_in_scope (os : OS) (nodeName : String) (pod : Pod) (st : State)
    (hscope : pod.NodeName = nodeName) :
    DeleteFunc os nodeName (.pod pod) st =
      some (stopCapture os pod
        (st.emit [.printf "[DELETE] %s/%s\n" [.str pod.Namespace, .str pod.Name]])) := by
  simp [DeleteFunc, hscope]

theorem DeleteFunc_out_of_scope (os : OS) (nodeName : String) (pod : Pod) (st : State)
    (hscope : pod.NodeName ≠ nodeName) :
    DeleteFunc os nodeName (.pod pod) st = some st := by
  simp [DeleteFunc, hscope]

theorem DeleteFunc_finalStateUnknown (os : OS) (nodeName key : String) (last : Pod)
    (st : State) :
    DeleteFunc os nodeName (.finalStateUnknown key last) st = none := rfl

/-- An in-scope delete delivered as the pod object, whatever the pod's
annotations, returns.  With no entry tracked for the pod the registry is
unchanged, no kill and no removal is attempted and no error line is printed.
With an entry tracked the entry is removed (every other key as before), the
stored process is killed once and each of the entry's n files is the object of
one removal attempt; nothing is started. -/
theorem DeleteFunc_pod_stops (os : OS) (nodeName : String) (pod : Pod) (st : State)
    (hscope : pod.NodeName = nodeName) :
    ∃ s, DeleteFunc os nodeName (.pod pod) st = some s ∧
    (st.captureProcs (podKey pod) = none →
      s.captureProcs = st.captureProcs ∧
      killAttempts (eventsSince st s) = [] ∧
      removeAttempts (eventsSince st s) = [] ∧
      errorLines (eventsSince st s) = []) ∧
    (∀ info, st.captureProcs (podKey pod) = some info →
      s.captureProcs = (fun k => if k = podKey pod then none else st.captureProcs k) ∧
      killAttempts (eventsSince st s) = [info.cmd.Proc] ∧
      removeAttempts (eventsSince st s) =
        (List.range info.n.toNat).map (rotatedFile (pcapBase pod.Name)) ∧
      startAttempts (eventsSince st s) = []) := by
  refine ⟨_, DeleteFunc_in_scope os nodeName pod st hscope, ?_⟩
  generalize hst : st.emit [.printf "[DELETE] %s/%s\n" [.str pod.Namespace, .str pod.Name]] = st'
  have ht' : st'.trace = st.trace ++
      [.printf "[DELETE] %s/%s\n" [.str pod.Namespace, .str pod.Name]] := by rw [← hst]; rfl
  have hc' : st'.captureProcs = st.captureProcs := by rw [← hst]; rfl
  have hd : isErrorFormat "[DELETE] %s/%s\n" = false := by decide
  have hi : isErrorFormat "[INFO] no running capture for %s\n" = false := by decide
  constructor
  · intro h
    have h' : st'.captureProcs (podKey pod) = none := by rw [hc']; exact h
    rw [stopCapture_untracked os pod st' h']
    have htr : (st'.emit [.printf "[INFO] no running capture for %s\n"
        [.str (podKey pod)]]).trace = st.trace ++
        [.printf "[DELETE] %s/%s\n" [.str pod.Namespace, .str pod.Name],
          .printf "[INFO] no running capture for %s\n" [.str (podKey pod)]] := by
      simp [State.emit, ht']
    rw [eventsSince_of_trace _ _ _ htr]
    exact ⟨hc', rfl, rfl, by simp [errorLines, hd, hi]⟩
  · intro info h
    have h' : st'.captureProcs (podKey pod) = some info := by rw [hc']; exact h
    obtain ⟨hreg, evs, ht, hk, hr, -, ha⟩ := stopCapture_tracked os pod st' info h'
    have htr : (stopCapture os pod st').trace = st.trace ++
        ([.printf "[DELETE] %s/%s\n" [.str pod.Namespace, .str pod.Name]] ++ evs) := by
      rw [ht, ht']; simp only [List.append_assoc]
    rw [eventsSince_of_trace _ _ _ htr, killAttempts_append, removeAttempts_append,
      startAttempts_append, hk, hr, ha, hreg, hc']
    exact ⟨rfl, rfl, rfl, rfl⟩

/-- C7 (the code at the failing input): default/web on node1 runs with 3
files and its deletion is delivered as a cache.DeletedFinalStateUnknown for
the key default/web.  The type assertion of the delete handler panics: the
handler yields no state, the run of the controller ends with the entry still
tracked, and no kill and no file removal has been attempted.  The same
deletion delivered as the pod object removes the entry, kills the process
once and attempts the removal of the 3 files. -/
theorem DeleteFunc_finalStateUnknown_panics :
    samplePod.NodeName = "node1" ∧
    (startCapture OS.allOk samplePod 3 State.init).captureProcs (podKey samplePod) =
      some (entryFor samplePod 3 { Pid := 0 }) ∧
    (DeleteFunc OS.allOk "node1" (.finalStateUnknown "default/web" samplePod)
        (startCapture OS.allOk samplePod 3 State.init)).isNone = true ∧
    (runNotifications .w64 OS.allOk "node1"
        [.delete (.finalStateUnknown "default/web" samplePod)]
        (startCapture OS.allOk samplePod 3 State.init)).captureProcs (podKey samplePod) =
      some (entryFor samplePod 3 { Pid := 0 }) ∧
    killAttempts (eventsSince (startCapture OS.allOk samplePod 3 State.init)
      (runNotifications .w64 OS.allOk "node1"
        [.delete (.finalStateUnknown "default/web" samplePod)]
        (startCapture OS.allOk samplePod 3 State.init))) = [] ∧
    removeAttempts (eventsSince (startCapture OS.allOk samplePod 3 State.init)
      (runNotifications .w64 OS.allOk "node1"
        [.delete (.finalStateUnknown "default/web" samplePod)]
        (startCapture OS.allOk samplePod 3 State.init))) = [] ∧
    (DeleteFunc OS.allOk "node1" (.pod samplePod)
        (startCapture OS.allOk samplePod 3 State.init)).map
        (fun s => (s.captureProcs (podKey samplePod),
          killAttempts (eventsSince (startCapture OS.allOk samplePod 3 State.init) s),
          removeAttempts (eventsSince (startCapture OS.allOk samplePod 3 State.init) s))) =
      some (none, [{ Pid := 0 }],
        ["/captures/capture-web.pcap", "/captures/capture-web.pcap1",
          "/captures/capture-web.pcap2"]) := by
  decide

/-- C8: an update whose new snapshot is Invalid (getCaptureCount returns an
error for it), whatever the old snapshot: the registry is exactly as before and
no start, kill or file removal is attempted. -/
theorem UpdateFunc_invalid_keeps_registry (w : IntSize) (os : OS) (nodeName : String)
    (oldPod newPod : Pod) (st : State) (e : GoError)
    (hinv : (getCaptureCount w newPod).2.2 = some e) :
    (UpdateFunc w os nodeName oldPod newPod st).captureProcs = st.captureProcs ∧
    startAttempts (eventsSince st (UpdateFunc w os nodeName oldPod newPod st)) = [] ∧
    killAttempts (eventsSince st (UpdateFunc w os nodeName oldPod newPod st)) = [] ∧
    removeAttempts (eventsSince st (UpdateFunc w os nodeName oldPod newPod st)) = [] := by
  have h0 : eventsSince st st = [] := by simp [eventsSince]
  rcases hN : getCaptureCount w newPod with ⟨newN, newOk, err⟩
  rw [hN] at hinv
  simp only at hinv
  subst hinv
  by_cases hscope : newPod.NodeName = nodeName
  · have hU : UpdateFunc w os nodeName oldPod newPod st =
        st.emit [.printf "[ERROR] %s/%s: %v\n"
          [.str newPod.Namespace, .str newPod.Name, .err e]] := by
      simp [UpdateFunc, hscope, hN]
    rw [hU, eventsSince_emit]
    exact ⟨rfl, rfl, rfl, rfl⟩
  · have hU : UpdateFunc w os nodeName oldPod newPod st = st := by
      simp [UpdateFunc, hscope]
    rw [hU, h0]
    exact ⟨rfl, rfl, rfl, rfl⟩

/-- C8 (witness): default/web runs with 4 files and its annotation changes
from "4" to "abc"; the entry with count 4 stays. -/
theorem UpdateFunc_invalid_keeps_registry_witness :
    (getCaptureCount .w64 (podWith "default" "web" "node1" "abc")).2.2 =
      some (.errorf "invalid tcpdump.antrea.io value: %q" "abc") ∧
    (UpdateFunc .w64 OS.allOk "node1" (podWith "default" "web" "node1" "4")
        (podWith "default" "web" "node1" "abc")
        (startCapture OS.allOk (podWith "default" "web" "node1" "4") 4 State.init)).captureProcs
        (podKey (podWith "default" "web" "node1" "abc")) =
      some (entryFor (podWith "default" "web" "node1" "4") 4 { Pid := 0 }) :=
  ⟨by decide,
    (congrFun (UpdateFunc_invalid_keeps_registry .w64 OS.allOk "node1"
      (podWith "default" "web" "node1" "4") (podWith "default" "web" "node1" "abc")
      (startCapture OS.allOk (podWith "default" "web" "node1" "4") 4 State.init)
      (.errorf "invalid tcpdump.antrea.io value: %q" "abc") (by decide)).1
      (podKey (podWith "default" "web" "node1" "abc"))).trans rfl⟩

/-- C9: for a tracked entry with count n, whatever the kill and each removal
return, stopCapture attempts the kill of the stored process and the removal
of each of the n files, and removes the entry; the registry it leaves is the
same under any other behaviour of the operating system. -/
theorem stopCapture_runs_to_completion (os os2 : OS) (pod : Pod) (st : State)
    (info : captureInfo) (h : st.captureProcs (podKey pod) = some info) :
    killAttempts (eventsSince st (stopCapture os pod st)) = [info.cmd.Proc] ∧
    removeAttempts (eventsSince st (stopCapture os pod st)) =
      (List.range info.n.toNat).map (rotatedFile (pcapBase pod.Name)) ∧
    (removeAttempts (eventsSince st (stopCapture os pod st))).length = info.n.toNat ∧
    (stopCapture os pod st).captureProcs (podKey pod) = none ∧
    (stopCapture os pod st).captureProcs = (stopCapture os2 pod st).captureProcs := by
  obtain ⟨hreg, evs, ht, hk, hr, -, -⟩ := stopCapture_tracked os pod st info h
  rw [eventsSince_of_trace _ _ evs ht, hk, hr, hreg, (stopCapture_tracked os2 pod st info h).1]
  exact ⟨rfl, rfl, by simp, by simp, rfl⟩

/-- C9 (witness): default/web runs with 3 files; the kill and every removal
fail, all 3 removals are attempted and the entry is gone. -/
theorem stopCapture_runs_to_completion_witness :
    (startCapture OS.allOk samplePod 3 State.init).captureProcs (podKey samplePod) =
      some (entryFor samplePod 3 { Pid := 0 }) ∧
    OS.allFail.Kill 2 { Pid := 0 } ≠ none ∧
    removeAttempts (eventsSince (startCapture OS.allOk samplePod 3 State.init)
        (stopCapture OS.allFail samplePod (startCapture OS.allOk samplePod 3 State.init))) =
      (List.range 3).map (rotatedFile (pcapBase "web")) ∧
    (stopCapture OS.allFail samplePod
        (startCapture OS.allOk samplePod 3 State.init)).captureProcs (podKey samplePod) = none :=
  ⟨rfl, by decide,
    (stopCapture_runs_to_completion OS.allFail OS.allOk samplePod
      (startCapture OS.allOk samplePod 3 State.init) (entryFor samplePod 3 { Pid := 0 }) rfl).2.1,
    (stopCapture_runs_to_completion OS.allFail OS.allOk samplePod
      (startCapture OS.allOk samplePod 3 State.init) (entryFor samplePod 3 { Pid := 0 })
      rfl).2.2.2.1⟩

/-- C10: when the spawn inside startCapture fails for an untracked pod, the
registry is unchanged and the pod stays untracked; a later startCapture for
the same pod, for any count and under any behaviour of the operating system,
attempts the spawn again, and tracks the pod if that spawn succeeds. -/
theorem startCapture_spawn_failure (os : OS) (pod : Pod) (n : Int) (st : State) (e : GoError)
    (h0 : st.captureProcs (podKey pod) = none)
    (hf : os.Start st.trace.length (tcpdumpArgs pod n) = .error e) :
    (startCapture os pod n st).captureProcs = st.captureProcs ∧
    (startCapture os pod n st).captureProcs (podKey pod) = none ∧
    spawned (eventsSince st (startCapture os pod n st)) = [] ∧
    (∀ (os2 : OS) (m : Int),
      startAttempts (eventsSince (startCapture os pod n st)
        (startCapture os2 pod m (startCapture os pod n st))) = [tcpdumpArgs pod m]) ∧
    (∀ (os2 : OS) (m : Int) (p : Process),
      os2.Start (startCapture os pod n st).trace.length (tcpdumpArgs pod m) = .ok p →
      (startCapture os2 pod m (startCapture os pod n st)).captureProcs (podKey pod) =
        some (entryFor pod m p)) := by
  have h1 := startCapture_fail os pod n st e h0 hf
  have hk : (startCapture os pod n st).captureProcs (podKey pod) = none := by
    rw [h1]; exact h0
  refine ⟨by rw [h1]; rfl, hk, by rw [h1, eventsSince_emit]; rfl, ?_, ?_⟩
  · intro os2 m
    obtain ⟨evs, ht, ha, -, -⟩ :=
      startCapture_untracked_events os2 pod m (startCapture os pod n st) hk
    rw [eventsSince_of_trace _ _ evs ht, ha]
  · intro os2 m p hp
    rw [startCapture_ok os2 pod m _ p hk hp]
    simp [entryFor]

/-- C10 (witness): the start of default/web fails, the next one succeeds. -/
theorem startCapture_spawn_failure_witness :
    State.init.captureProcs (podKey samplePod) = none ∧
    OS.allFail.Start State.init.trace.length (tcpdumpArgs samplePod 3) =
      .error (.sys "exec: not found") ∧
    (startCapture OS.allFail samplePod 3 State.init).captureProcs (podKey samplePod) = none ∧
    startAttempts (eventsSince (startCapture OS.allFail samplePod 3 State.init)
        (startCapture OS.allOk samplePod 3 (startCapture OS.allFail samplePod 3 State.init))) =
      [tcpdumpArgs samplePod 3] :=
  ⟨rfl, rfl,
    (startCapture_spawn_failure OS.allFail samplePod 3 State.init (.sys "exec: not found")
      rfl rfl).2.1,
    (startCapture_spawn_failure OS.allFail samplePod 3 State.init (.sys "exec: not found")
      rfl rfl).2.2.2.1 OS.allOk 3⟩


/-! ## The results of getCaptureCount -/

/-- The three shapes of a getCaptureCount result. -/
theorem getCaptureCount_cases (w : IntSize) (pod : Pod) :
    getCaptureCount w pod = (0, false, none) ∨
    (∃ e, getCaptureCount w pod = (0, true, some e)) ∨
    (∃ n, 0 < n ∧ getCaptureCount w pod = (n, true, none)) := by
  cases h : pod.Annotations "tcpdump.antrea.io" with
  | none => exact Or.inl (getCaptureCount_absent w pod h)
  | some s =>
    rw [getCaptureCount_present w pod s h]
    by_cases hc : (Atoi w s).2 ≠ none ∨ (Atoi w s).1 ≤ 0
    · rw [if_pos hc]
      exact Or.inr (Or.inl ⟨_, rfl⟩)
    · rw [if_neg hc]
      exact Or.inr (Or.inr ⟨_, by omega, rfl⟩)

theorem interpret_absent (w : IntSize) (pod : Pod) :
    interpret w pod = .Absent ↔ getCaptureCount w pod = (0, false, none) := by
  unfold interpret
  rcases getCaptureCount_cases w pod with h | ⟨e, h⟩ | ⟨n, hn, h⟩ <;> simp [h]

theorem interpret_invalid (w : IntSize) (pod : Pod) (e : GoError) :
    interpret w pod = .Invalid e ↔ getCaptureCount w pod = (0, true, some e) := by
  unfold interpret
  rcases getCaptureCount_cases w pod with h | ⟨e', h⟩ | ⟨n, hn, h⟩ <;> simp [h]

theorem interpret_active (w : IntSize) (pod : Pod) (n : Int) :
    interpret w pod = .Active n ↔ getCaptureCount w pod = (n, true, none) := by
  unfold interpret
  rcases getCaptureCount_cases w pod with h | ⟨e', h⟩ | ⟨m, hm, h⟩ <;> simp [h]

theorem active_pos (w : IntSize) (pod : Pod) (n : Int)
    (h : getCaptureCount w pod = (n, true, none)) : 0 < n := by
  rcases getCaptureCount_cases w pod with h1 | ⟨e', h1⟩ | ⟨m, hm, h1⟩
  · rw [h1] at h; simp at h
  · rw [h1] at h; simp at h
  · rw [h1] at h
    have : m = n := by simpa using h
    omega

/-! ## The update handler, case by case -/

theorem UpdateFunc_out_of_scope (w : IntSize) (os : OS) (nodeName : String)
    (oldPod newPod : Pod) (st : State) (hscope : newPod.NodeName ≠ nodeName) :
    UpdateFunc w os nodeName oldPod newPod st = st := by
  simp [UpdateFunc, hscope]

theorem UpdateFunc_invalid (w : IntSize) (os : OS) (nodeName : String)
    (oldPod newPod : Pod) (st : State) (e : GoError) (hscope : newPod.NodeName = nodeName)
    (hn : (getCaptureCount w newPod).2.2 = some e) :
    UpdateFunc w os nodeName oldPod newPod st =
      st.emit [.printf "[ERROR] %s/%s: %v\n"
        [.str newPod.Namespace, .str newPod.Name, .err e]] := by
  rcases hN : getCaptureCount w newPod with ⟨newN, newOk, err⟩
  rw [hN] at hn
  simp only at hn
  subst hn
  simp [UpdateFunc, hscope, hN]

theorem UpdateFunc_same (w : IntSize) (os : OS) (nodeName : String)
    (oldPod newPod : Pod) (st : State) (n : Int)
    (ho : getCaptureCount w oldPod = (n, true, none))
    (hn : getCaptureCount w newPod = (n, true, none)) :
    UpdateFunc w os nodeName oldPod newPod st = st := by
  simp [UpdateFunc, ho, hn]

theorem UpdateFunc_absent_absent (w : IntSize) (os : OS) (nodeName : String)
    (oldPod newPod : Pod) (st : State)
    (ho : getCaptureCount w oldPod = (0, false, none))
    (hn : getCaptureCount w newPod = (0, false, none)) :
    UpdateFunc w os nodeName oldPod newPod st = st := by
  simp [UpdateFunc, ho, hn]

theorem UpdateFunc_start (w : IntSize) (os : OS) (nodeName : String)
    (oldPod newPod : Pod) (st : State) (n : Int) (hscope : newPod.NodeName = nodeName)
    (ho : getCaptureCount w oldPod = (0, false, none))
    (hn : getCaptureCount w newPod = (n, true, none)) :
    UpdateFunc w os nodeName oldPod newPod st =
      startCapture os newPod n
        (st.emit [.printf "[CAPTURE START] %s/%s N=%d\n"
          [.str newPod.Namespace, .str newPod.Name, .int n]]) := by
  simp [UpdateFunc, hscope, ho, hn]

theorem UpdateFunc_stop (w : IntSize) (os : OS) (nodeName : String)
    (oldPod newPod : Pod) (st : State) (hscope : newPod.NodeName = nodeName)
    (ho : (getCaptureCount w oldPod).2.1 = true)
    (hn : getCaptureCount w newPod = (0, false, none)) :
    UpdateFunc w os nodeName oldPod newPod st =
      stopCapture os newPod
        (st.emit [.printf "[CAPTURE STOP] %s/%s\n"
          [.str newPod.Namespace, .str newPod.Name]]) := by
  rcases hO : getCaptureCount w oldPod with ⟨oldN, oldOk, oerr⟩
  rw [hO] at ho
  simp only at ho
  subst ho
  simp [UpdateFunc, hscope, hO, hn]

theorem UpdateFunc_restart_any (w : IntSize) (os : OS) (nodeName : String)
    (oldPod newPod : Pod) (st : State) (n2 : Int) (hscope : newPod.NodeName = nodeName)
    (ho : (getCaptureCount w oldPod).2.1 = true)
    (hn : getCaptureCount w newPod = (n2, true, none))
    (hne : (getCaptureCount w oldPod).1 ≠ n2) :
    UpdateFunc w os nodeName oldPod newPod st =
      startCapture os newPod n2 (stopCapture os newPod
        (st.emit [.printf "[CAPTURE UPDATE] %s/%s N=%d\n"
          [.str newPod.Namespace, .str newPod.Name, .int n2]])) := by
  rcases hO : getCaptureCount w oldPod with ⟨oldN, oldOk, oerr⟩
  rw [hO] at ho hne
  simp only at ho hne
  subst ho
  simp [UpdateFunc, hscope, hO, hn, hne]

/-- C11: an update whose old and new snapshots yield the same request, both
Active(n) with the same n or both Absent, returns the state as it was: the
registry is unchanged and there is no event at all, so no stop, start, spawn,
kill or file removal. -/
theorem UpdateFunc_unchanged_request (w : IntSize) (os : OS) (nodeName : String)
    (oldPod newPod : Pod) (st : State)
    (h : (∃ n, getCaptureCount w oldPod = (n, true, none) ∧
            getCaptureCount w newPod = (n, true, none)) ∨
         (getCaptureCount w oldPod = (0, false, none) ∧
            getCaptureCount w newPod = (0, false, none))) :
    UpdateFunc w os nodeName oldPod newPod st = st ∧
    (UpdateFunc w os nodeName oldPod newPod st).captureProcs = st.captureProcs ∧
    eventsSince st (UpdateFunc w os nodeName oldPod newPod st) = [] := by
  have hU : UpdateFunc w os nodeName oldPod newPod st = st := by
    rcases h with ⟨n, ho, hn⟩ | ⟨ho, hn⟩
    · exact UpdateFunc_same w os nodeName oldPod newPod st n ho hn
    · exact UpdateFunc_absent_absent w os nodeName oldPod newPod st ho hn
  rw [hU]
  exact ⟨rfl, rfl, by simp [eventsSince]⟩

/-- C11 (witness): default/web runs with 3 files and an update arrives with the
annotation still "3"; the running capture stays as it is. -/
theorem UpdateFunc_unchanged_request_witness :
    (∃ n, getCaptureCount .w64 samplePod = (n, true, none) ∧
        getCaptureCount .w64 samplePod = (n, true, none)) ∧
    UpdateFunc .w64 OS.allFail "node1" samplePod samplePod
        (startCapture OS.allOk samplePod 3 State.init) =
      startCapture OS.allOk samplePod 3 State.init :=
  ⟨⟨3, by decide, by decide⟩,
    (UpdateFunc_unchanged_request .w64 OS.allFail "node1" samplePod samplePod
      (startCapture OS.allOk samplePod 3 State.init)
      (Or.inl ⟨3, by decide, by decide⟩)).1⟩

/-! ## Keys and file names as character lists -/

/-- Two lists that split at a separator, the parts before the separators free
of separators, split in the same way. -/
theorem append_cons_unique {α : Type} (P : α → Prop) :
    ∀ (xs xs2 : List α) (c c2 : α) (ys ys2 : List α),
      (∀ x ∈ xs, P x) → (∀ x ∈ xs2, P x) → ¬ P c → ¬ P c2 →
      xs ++ c :: ys = xs2 ++ c2 :: ys2 → xs = xs2 ∧ c = c2 ∧ ys = ys2 := by
  intro xs
  induction xs with
  | nil =>
    intro xs2 c c2 ys ys2 _ h2 hc _ h
    cases xs2 with
    | nil =>
      simp only [List.nil_append, List.cons.injEq] at h
      exact ⟨rfl, h.1, h.2⟩
    | cons a as =>
      simp only [List.nil_append, List.cons_append, List.cons.injEq] at h
      exact absurd (h.1 ▸ h2 a (List.mem_cons_self a as)) hc
  | cons x xs ih =>
    intro xs2 c c2 ys ys2 h1 h2 hc hc2 h
    cases xs2 with
    | nil =>
      simp only [List.nil_append, List.cons_append, List.cons.injEq] at h
      exact absurd (h.1 ▸ h1 x (List.mem_cons_self x xs)) hc2
    | cons a as =>
      simp only [List.cons_append, List.cons.injEq] at h
      obtain ⟨e1, e2, e3⟩ := ih as c c2 ys ys2
        (fun y hy => h1 y (List.mem_cons_of_mem _ hy))
        (fun y hy => h2 y (List.mem_cons_of_mem _ hy)) hc hc2 h.2
      exact ⟨by rw [h.1, e1], e2, e3⟩

theorem podKey_toList (pod : Pod) :
    (podKey pod).toList = pod.Namespace.toList ++ '/' :: pod.Name.toList := by
  simp [podKey, String.toList, String.data_append]

theorem string_eq_of_toList {a b : String} (h : a.toList = b.toList) : a = b :=
  String.ext h

/-- C12: for two pods whose namespaces contain no '/', podKey gives the same
key exactly when the namespaces are equal and the names are equal. -/
theorem podKey_injective (p q : Pod)
    (hp : '/' ∉ p.Namespace.toList) (hq : '/' ∉ q.Namespace.toList) :
    podKey p = podKey q ↔ (p.Namespace = q.Namespace ∧ p.Name = q.Name) := by
  constructor
  · intro h
    have h1 : (podKey p).toList = (podKey q).toList := by rw [h]
    rw [podKey_toList, podKey_toList] at h1
    obtain ⟨e1, -, e3⟩ := append_cons_unique (fun c : Char => c ≠ '/') _ _ _ _ _ _
      (fun x hx e => hp (e ▸ hx)) (fun x hx e => hq (e ▸ hx)) (by simp) (by simp) h1
    exact ⟨string_eq_of_toList e1, string_eq_of_toList e3⟩
  · rintro ⟨h1, h2⟩
    simp [podKey, h1, h2]

/-- C12 (witness): default/web against itself and against kube-system/web. -/
theorem podKey_injective_witness :
    '/' ∉ samplePod.Namespace.toList ∧
    '/' ∉ (podBare "kube-system" "web" "node1").Namespace.toList ∧
    podKey samplePod ≠ podKey (podBare "kube-system" "web" "node1") :=
  ⟨by decide, by decide,
    fun h => absurd ((podKey_injective samplePod (podBare "kube-system" "web" "node1")
      (by decide) (by decide)).1 h).1 (by decide)⟩

/-! ## Frame lemmas: what a handler can be, and the keys it leaves alone -/

/-- The five shapes of an update: nothing, a printed line, a start, a stop, or
a stop followed by a start; a start always has a positive count. -/
theorem UpdateFunc_shape (w : IntSize) (os : OS) (nodeName : String)
    (oldPod newPod : Pod) (st : State) :
    UpdateFunc w os nodeName oldPod newPod st = st ∨
    (∃ evs, UpdateFunc w os nodeName oldPod newPod st = st.emit evs) ∨
    (∃ evs n, 0 < n ∧ UpdateFunc w os nodeName oldPod newPod st =
        startCapture os newPod n (st.emit evs)) ∨
    (∃ evs, UpdateFunc w os nodeName oldPod newPod st =
        stopCapture os newPod (st.emit evs)) ∨
    (∃ evs n, 0 < n ∧ UpdateFunc w os nodeName oldPod newPod st =
        startCapture os newPod n (stopCapture os newPod (st.emit evs))) := by
  by_cases hscope : newPod.NodeName = nodeName
  swap
  · exact Or.inl (UpdateFunc_out_of_scope w os nodeName oldPod newPod st hscope)
  rcases getCaptureCount_cases w newPod with hn | ⟨e, hn⟩ | ⟨n, hpos, hn⟩
  · rcases getCaptureCount_cases w oldPod with ho | ⟨e, ho⟩ | ⟨m, -, ho⟩
    · exact Or.inl (UpdateFunc_absent_absent w os nodeName oldPod newPod st ho hn)
    · exact Or.inr (Or.inr (Or.inr (Or.inl ⟨_,
        UpdateFunc_stop w os nodeName oldPod newPod st hscope (by rw [ho]) hn⟩)))
    · exact Or.inr (Or.inr (Or.inr (Or.inl ⟨_,
        UpdateFunc_stop w os nodeName oldPod newPod st hscope (by rw [ho]) hn⟩)))
  · exact Or.inr (Or.inl ⟨_,
      UpdateFunc_invalid w os nodeName oldPod newPod st e hscope (by rw [hn])⟩)
  · rcases getCaptureCount_cases w oldPod with ho | ⟨e, ho⟩ | ⟨m, -, ho⟩
    · exact Or.inr (Or.inr (Or.inl ⟨_, n, hpos,
        UpdateFunc_start w os nodeName oldPod newPod st n hscope ho hn⟩))
    · exact Or.inr (Or.inr (Or.inr (Or.inr ⟨_, n, hpos,
        UpdateFunc_restart_any w os nodeName oldPod newPod st n hscope (by rw [ho]) hn
          (by rw [ho]; simp; omega)⟩)))
    · by_cases hmn : m = n
      · subst hmn
        exact Or.inl (UpdateFunc_same w os nodeName oldPod newPod st m ho hn)
      · exact Or.inr (Or.inr (Or.inr (Or.inr ⟨_, n, hpos,
          UpdateFunc_restart_any w os nodeName oldPod newPod st n hscope (by rw [ho]) hn
            (by rw [ho]; exact hmn)⟩)))

theorem startCapture_other (os : OS) (pod : Pod) (n : Int) (st : State) (k : String)
    (hk : k ≠ podKey pod) :
    (startCapture os pod n st).captureProcs k = st.captureProcs k := by
  cases h : st.captureProcs (podKey pod) with
  | some info => rw [startCapture_tracked os pod n st info h]; rfl
  | none =>
    cases hs : os.Start st.trace.length (tcpdumpArgs pod n) with
    | error e => rw [startCapture_fail os pod n st e h hs]; rfl
    | ok p =>
      rw [startCapture_ok os pod n st p h hs]
      simp [hk]

theorem stopCapture_other (os : OS) (pod : Pod) (st : State) (k : String)
    (hk : k ≠ podKey pod) :
    (stopCapture os pod st).captureProcs k = st.captureProcs k := by
  cases h : st.captureProcs (podKey pod) with
  | none => rw [stopCapture_untracked os pod st h]; rfl
  | some info =>
    rw [(stopCapture_tracked os pod st info h).1]
    simp [hk]

theorem UpdateFunc_other (w : IntSize) (os : OS) (nodeName : String)
    (oldPod newPod : Pod) (st : State) (k : String) (hk : k ≠ podKey newPod) :
    (UpdateFunc w os nodeName oldPod newPod st).captureProcs k = st.captureProcs k := by
  rcases UpdateFunc_shape w os nodeName oldPod newPod st with
    h | ⟨evs, h⟩ | ⟨evs, n, -, h⟩ | ⟨evs, h⟩ | ⟨evs, n, -, h⟩
  · rw [h]
  · rw [h]; rfl
  · rw [h, startCapture_other os newPod n _ k hk]; rfl
  · rw [h, stopCapture_other os newPod _ k hk]; rfl
  · rw [h, startCapture_other os newPod n _ k hk, stopCapture_other os newPod _ k hk]; rfl

theorem DeleteFunc_other (os : OS) (nodeName : String) (pod : Pod) (st : State) (k : String)
    (hk : k ≠ podKey pod) :
    (DeleteFunc os nodeName (.pod pod) st).map (fun s => s.captureProcs k) =
      some (st.captureProcs k) := by
  by_cases hscope : pod.NodeName = nodeName
  · rw [DeleteFunc_in_scope os nodeName pod st hscope, Option.map_some',
      stopCapture_other os pod _ k hk]
    rfl
  · rw [DeleteFunc_out_of_scope os nodeName pod st hscope]
    rfl

/-- C19: startCapture, stopCapture and the add, update and delete handlers,
applied to a pod, leave the registry entry of every other key exactly as it
was (present or absent, same process, same count), whatever the operating
system answers; the delete handler, handed the pod, returns a state. -/
theorem other_entries_untouched (w : IntSize) (os : OS) (nodeName : String)
    (oldPod pod : Pod) (n : Int) (st : State) (k : String) (hk : k ≠ podKey pod) :
    (startCapture os pod n st).captureProcs k = st.captureProcs k ∧
    (stopCapture os pod st).captureProcs k = st.captureProcs k ∧
    (AddFunc w nodeName pod st).captureProcs k = st.captureProcs k ∧
    (UpdateFunc w os nodeName oldPod pod st).captureProcs k = st.captureProcs k ∧
    (DeleteFunc os nodeName (.pod pod) st).map (fun s => s.captureProcs k) =
      some (st.captureProcs k) :=
  ⟨startCapture_other os pod n st k hk, stopCapture_other os pod st k hk,
    congrFun (AddFunc_frame w nodeName pod st).1 k,
    UpdateFunc_other w os nodeName oldPod pod st k hk,
    DeleteFunc_other os nodeName pod st k hk⟩

/-- C19 (witness): kube-system/web is deleted while default/web runs; the
entry of default/web stays. -/
theorem other_entries_untouched_witness :
    podKey samplePod ≠ podKey (podBare "kube-system" "web" "node1") ∧
    (DeleteFunc OS.allOk "node1" (.pod (podBare "kube-system" "web" "node1"))
        (startCapture OS.allOk samplePod 3 State.init)).map
        (fun s => s.captureProcs (podKey samplePod)) =
      some (some (entryFor samplePod 3 { Pid := 0 })) :=
  ⟨by decide,
    ((other_entries_untouched .w64 OS.allOk "node1" samplePod
      (podBare "kube-system" "web" "node1") 3 (startCapture OS.allOk samplePod 3 State.init)
      (podKey samplePod) (by decide)).2.2.2.2).trans rfl⟩

/-! ## The tcpdump invocation and the files of a capture -/

/-- C13: on an untracked pod, with the spawn succeeding, startCapture makes
one start attempt, with the argument vector tcpdump -C 1M -W N -w
/captures/capture-NAME.pcap (N the count in decimal), and stores that vector
with the count.  The following stopCapture attempts, for a positive count,
the removal of the output path first, and for a count n ≥ 0 exactly n
removals. -/
theorem startCapture_invocation (os : OS) (pod : Pod) (n : Int) (st : State) (p : Process)
    (h0 : st.captureProcs (podKey pod) = none)
    (hs : os.Start st.trace.length (tcpdumpArgs pod n) = .ok p) :
    tcpdumpArgs pod n =
      ["tcpdump", "-C", "1M", "-W", toString n, "-w",
        "/captures/capture-" ++ pod.Name ++ ".pcap"] ∧
    startAttempts (eventsSince st (startCapture os pod n st)) = [tcpdumpArgs pod n] ∧
    spawned (eventsSince st (startCapture os pod n st)) = [p] ∧
    (startCapture os pod n st).captureProcs (podKey pod) =
      some { cmd := { Args := tcpdumpArgs pod n, Proc := p }, n := n } ∧
    (0 < n →
      (removeAttempts (eventsSince (startCapture os pod n st)
        (stopCapture os pod (startCapture os pod n st)))).head? =
        some ("/captures/capture-" ++ pod.Name ++ ".pcap")) ∧
    (0 ≤ n →
      ((removeAttempts (eventsSince (startCapture os pod n st)
        (stopCapture os pod (startCapture os pod n st)))).length : Int) = n) := by
  have h1 := startCapture_ok os pod n st p h0 hs
  have hk : (startCapture os pod n st).captureProcs (podKey pod) = some (entryFor pod n p) := by
    rw [h1]; simp [entryFor]
  obtain ⟨-, evs, ht, -, hr, -, -⟩ := stopCapture_tracked os pod (startCapture os pod n st) _ hk
  rw [eventsSince_of_trace _ _ evs ht, hr]
  refine ⟨rfl, ?_, ?_, hk, ?_, ?_⟩
  · rw [h1]; simp [eventsSince, startAttempts]
  · rw [h1]; simp [eventsSince, spawned]
  · intro hn
    have hn' : 0 < n.toNat := by omega
    rw [show (entryFor pod n p).n = n from rfl, rotatedFiles_eq _ _ hn']
    rfl
  · intro hn
    simp only [entryFor, List.length_map, List.length_range]
    omega

/-- C13 (witness): the start of 3 files for default/web. -/
theorem startCapture_invocation_witness :
    State.init.captureProcs (podKey samplePod) = none ∧
    OS.allOk.Start State.init.trace.length (tcpdumpArgs samplePod 3) = .ok { Pid := 0 } ∧
    (0 : Int) < 3 ∧
    startAttempts (eventsSince State.init (startCapture OS.allOk samplePod 3 State.init)) =
      [["tcpdump", "-C", "1M", "-W", "3", "-w", "/captures/capture-web.pcap"]] ∧
    (removeAttempts (eventsSince (startCapture OS.allOk samplePod 3 State.init)
        (stopCapture OS.allOk samplePod (startCapture OS.allOk samplePod 3 State.init)))).head? =
      some "/captures/capture-web.pcap" :=
  ⟨rfl, rfl, by decide,
    (startCapture_invocation OS.allOk samplePod 3 State.init { Pid := 0 } rfl rfl).2.1,
    (startCapture_invocation OS.allOk samplePod 3 State.init { Pid := 0 } rfl rfl).2.2.2.2.1
      (by decide)⟩

theorem podKey_ne_of_namespace_ne (p q : Pod) (hname : p.Name = q.Name)
    (hns : p.Namespace ≠ q.Namespace) : podKey p ≠ podKey q := by
  intro h
  have h1 : (podKey p).toList = (podKey q).toList := by rw [h]
  have e : '/' :: p.Name.toList = '/' :: q.Name.toList := by rw [hname]
  rw [podKey_toList, podKey_toList, e] at h1
  exact hns (string_eq_of_toList (List.append_cancel_right h1))

/-- C17: two pods with the same name in different namespaces have distinct
registry keys.  Yet startCapture, for either pod and any count n, attempts to
start tcpdump with the one output path /captures/capture-NAME.pcap after -w,
and stopCapture, for either pod tracked with count n, attempts to remove the
same files: /captures/capture-NAME.pcap, then the path followed by 1 .. n-1 in
decimal.  So with equal stored counts the stop of one pod attempts to remove
exactly the files the stop of the other does. -/
theorem capture_files_keyed_by_name (p q : Pod) (hname : p.Name = q.Name)
    (hns : p.Namespace ≠ q.Namespace) :
    podKey p ≠ podKey q ∧
    (∀ (os : OS) (n : Int) (st : State), st.captureProcs (podKey p) = none →
      startAttempts (eventsSince st (startCapture os p n st)) =
        [["tcpdump", "-C", "1M", "-W", toString n, "-w",
          "/captures/capture-" ++ p.Name ++ ".pcap"]]) ∧
    (∀ (os : OS) (n : Int) (st : State), st.captureProcs (podKey q) = none →
      startAttempts (eventsSince st (startCapture os q n st)) =
        [["tcpdump", "-C", "1M", "-W", toString n, "-w",
          "/captures/capture-" ++ p.Name ++ ".pcap"]]) ∧
    (∀ (os : OS) (st : State) (i : captureInfo), st.captureProcs (podKey p) = some i →
      removeAttempts (eventsSince st (stopCapture os p st)) =
        (List.range i.n.toNat).map (fun k =>
          if k > 0 then "/captures/capture-" ++ p.Name ++ ".pcap" ++ toString k
          else "/captures/capture-" ++ p.Name ++ ".pcap")) ∧
    (∀ (os : OS) (st : State) (j : captureInfo), st.captureProcs (podKey q) = some j →
      removeAttempts (eventsSince st (stopCapture os q st)) =
        (List.range j.n.toNat).map (fun k =>
          if k > 0 then "/captures/capture-" ++ p.Name ++ ".pcap" ++ toString k
          else "/captures/capture-" ++ p.Name ++ ".pcap")) ∧
    (∀ (os os2 : OS) (st st2 : State) (i j : captureInfo),
      st.captureProcs (podKey p) = some i → st2.captureProcs (podKey q) = some j →
      i.n = j.n →
      removeAttempts (eventsSince st (stopCapture os p st)) =
        removeAttempts (eventsSince st2 (stopCapture os2 q st2))) := by
  have hstart : ∀ (r : Pod) (os : OS) (n : Int) (st : State),
      st.captureProcs (podKey r) = none →
      startAttempts (eventsSince st (startCapture os r n st)) =
        [["tcpdump", "-C", "1M", "-W", toString n, "-w",
          "/captures/capture-" ++ r.Name ++ ".pcap"]] := by
    intro r os n st h
    obtain ⟨e, t, a, -, -⟩ := startCapture_untracked_events os r n st h
    rw [eventsSince_of_trace _ _ e t, a]
    rfl
  have hstop : ∀ (r : Pod) (os : OS) (st : State) (i : captureInfo),
      st.captureProcs (podKey r) = some i →
      removeAttempts (eventsSince st (stopCapture os r st)) =
        (List.range i.n.toNat).map (fun k =>
          if k > 0 then "/captures/capture-" ++ r.Name ++ ".pcap" ++ toString k
          else "/captures/capture-" ++ r.Name ++ ".pcap") := by
    intro r os st i h
    obtain ⟨-, e, t, -, hr, -, -⟩ := stopCapture_tracked os r st i h
    rw [eventsSince_of_trace _ _ e t, hr]
    rfl
  refine ⟨podKey_ne_of_namespace_ne p q hname hns, hstart p, ?_, hstop p, ?_, ?_⟩
  · rw [hname]; exact hstart q
  · rw [hname]; exact hstop q
  · intro os os2 st st2 i j h1 h2 hn
    rw [hstop p os st i h1, hstop q os2 st2 j h2, hn, hname]

/-- C17 (witness): default/web and kube-system/web are both started with 3
files, on the same output path, and both are tracked; the stop of
kube-system/web attempts to remove the three files of default/web. -/
theorem capture_files_keyed_by_name_witness :
    samplePod.Name = (podBare "kube-system" "web" "node1").Name ∧
    samplePod.Namespace ≠ (podBare "kube-system" "web" "node1").Namespace ∧
    State.init.captureProcs (podKey samplePod) = none ∧
    startAttempts (eventsSince State.init (startCapture OS.allOk samplePod 3 State.init)) =
      [["tcpdump", "-C", "1M", "-W", "3", "-w", "/captures/capture-web.pcap"]] ∧
    (startCapture OS.allOk samplePod 3 State.init).captureProcs
      (podKey (podBare "kube-system" "web" "node1")) = none ∧
    startAttempts (eventsSince (startCapture OS.allOk samplePod 3 State.init)
        (startCapture OS.allOk (podBare "kube-system" "web" "node1") 3
          (startCapture OS.allOk samplePod 3 State.init))) =
      [["tcpdump", "-C", "1M", "-W", "3", "-w", "/captures/capture-web.pcap"]] ∧
    (startCapture OS.allOk (podBare "kube-system" "web" "node1") 3
        (startCapture OS.allOk samplePod 3 State.init)).captureProcs
        (podKey (podBare "kube-system" "web" "node1")) =
      some (entryFor (podBare "kube-system" "web" "node1") 3 { Pid := 2 }) ∧
    removeAttempts (eventsSince
        (startCapture OS.allOk (podBare "kube-system" "web" "node1") 3
          (startCapture OS.allOk samplePod 3 State.init))
        (stopCapture OS.allOk (podBare "kube-system" "web" "node1")
          (startCapture OS.allOk (podBare "kube-system" "web" "node1") 3
            (startCapture OS.allOk samplePod 3 State.init)))) =
      ["/captures/capture-web.pcap", "/captures/capture-web.pcap1",
        "/captures/capture-web.pcap2"] :=
  ⟨rfl, by decide, rfl,
    (capture_files_keyed_by_name samplePod (podBare "kube-system" "web" "node1") rfl
      (by decide)).2.1 OS.allOk 3 State.init rfl,
    rfl,
    (capture_files_keyed_by_name samplePod (podBare "kube-system" "web" "node1") rfl
      (by decide)).2.2.1 OS.allOk 3 (startCapture OS.allOk samplePod 3 State.init) rfl,
    rfl,
    (capture_files_keyed_by_name samplePod (podBare "kube-system" "web" "node1") rfl
      (by decide)).2.2.2.2.1 OS.allOk _ (entryFor (podBare "kube-system" "web" "node1") 3
        { Pid := 2 }) rfl⟩

/-! ## The naming scheme of the capture files -/

theorem isDecimal_digitChar : ∀ k, k < 10 → isDecimal (Nat.digitChar k) = true := by
  decide

theorem toDigitsCore_decimal (fuel n : Nat) (ds : List Char)
    (h : ∀ c ∈ ds, isDecimal c = true) :
    ∀ c ∈ Nat.toDigitsCore 10 fuel n ds, isDecimal c = true := by
  induction fuel generalizing n ds with
  | zero => simpa [Nat.toDigitsCore] using h
  | succ fuel ih =>
    have hd := isDecimal_digitChar (n % 10) (Nat.mod_lt _ (by norm_num))
    have h2 : ∀ c ∈ Nat.digitChar (n % 10) :: ds, isDecimal c = true := by
      intro c hc
      rcases List.mem_cons.1 hc with e | e
      · rw [e]; exact hd
      · exact h c e
    simp only [Nat.toDigitsCore]
    split
    · exact h2
    · exact ih (n / 10) _ h2

theorem toString_decimal (n : Nat) : ∀ c ∈ (toString n).toList, isDecimal c = true := by
  show ∀ c ∈ Nat.toDigitsCore 10 (n + 1) n [], isDecimal c = true
  exact toDigitsCore_decimal (n + 1) n [] (by simp)

theorem rotatedFile_toList (name : String) (i : Nat) :
    (rotatedFile (pcapBase name) i).toList =
      "/captures/capture-".toList ++ (name.toList ++
        (".pcap".toList ++ (if i > 0 then (toString i).toList else []))) := by
  unfold rotatedFile pcapBase
  split <;> simp [String.toList, String.data_append]

theorem index_suffix_injective {i j : Nat}
    (h : (if i > 0 then (toString i).toList else []) =
      (if j > 0 then (toString j).toList else [])) : i = j := by
  have key : ∀ k : Nat, 0 < k → (toString k).toList ≠ [] := by
    intro k hk he
    have h3 := valOf_toString k
    rw [he, valOf_nil] at h3
    omega
  by_cases hi : i > 0 <;> by_cases hj : j > 0
  · rw [if_pos hi, if_pos hj] at h
    exact toString_nat_injective (string_eq_of_toList h)
  · rw [if_pos hi, if_neg hj] at h
    exact absurd h (key i hi)
  · rw [if_neg hi, if_pos hj] at h
    exact absurd h.symm (key j hj)
  · omega

/-- The file name determines the pod name and the index. -/
theorem rotatedFile_pcapBase_injective {a b : String} {i j : Nat}
    (h : rotatedFile (pcapBase a) i = rotatedFile (pcapBase b) j) : a = b ∧ i = j := by
  have h1 : (rotatedFile (pcapBase a) i).toList = (rotatedFile (pcapBase b) j).toList := by
    rw [h]
  rw [rotatedFile_toList, rotatedFile_toList] at h1
  have h2 := List.append_cancel_left h1
  generalize hdi : (if i > 0 then (toString i).toList else []) = di at h2
  generalize hdj : (if j > 0 then (toString j).toList else []) = dj at h2
  have hdi_dec : ∀ c ∈ di.reverse, isDecimal c = true := by
    intro c hc
    rw [List.mem_reverse, ← hdi] at hc
    split at hc
    · exact toString_decimal i c hc
    · simp at hc
  have hdj_dec : ∀ c ∈ dj.reverse, isDecimal c = true := by
    intro c hc
    rw [List.mem_reverse, ← hdj] at hc
    split at hc
    · exact toString_decimal j c hc
    · simp at hc
  have h3 := congrArg List.reverse h2
  simp only [List.reverse_append] at h3
  have hp : ".pcap".toList.reverse = 'p' :: "acp.".toList := by decide
  rw [hp] at h3
  simp only [List.cons_append, List.append_assoc] at h3
  obtain ⟨e1, -, e3⟩ := append_cons_unique (fun c : Char => isDecimal c = true) _ _ _ _ _ _
    hdi_dec hdj_dec (by decide) (by decide) h3
  have e4 := List.reverse_injective (List.append_cancel_left e3)
  have e5 : di = dj := List.reverse_injective e1
  refine ⟨string_eq_of_toList e4, index_suffix_injective ?_⟩
  rw [hdi, hdj, e5]

/-- C18: the path stopCapture builds for a pod name and an index (the base
/captures/capture-NAME.pcap for index 0, the base followed by the index in
decimal otherwise) is the same for two pairs only if the names are equal and
the indices are equal; so the n paths of one pod are pairwise distinct and the
paths of two pods with different names have nothing in common. -/
theorem capture_file_naming_injective (a b : String) :
    (∀ i j : Nat, rotatedFile (pcapBase a) i = rotatedFile (pcapBase b) j → a = b ∧ i = j) ∧
    (∀ n : Nat, ((List.range n).map (rotatedFile (pcapBase a))).Nodup) ∧
    (a ≠ b → ∀ n m : Nat,
      List.Disjoint ((List.range n).map (rotatedFile (pcapBase a)))
        ((List.range m).map (rotatedFile (pcapBase b)))) := by
  refine ⟨fun i j h => rotatedFile_pcapBase_injective h, fun n => rotatedFiles_nodup _ n, ?_⟩
  intro hab n m f h1 h2
  obtain ⟨i, -, hi⟩ := List.mem_map.1 h1
  obtain ⟨j, -, hj⟩ := List.mem_map.1 h2
  exact hab (rotatedFile_pcapBase_injective (hi.trans hj.symm)).1

/-- C18 (witness): the three files of web and the three files of web.pcap1
are six different paths. -/
theorem capture_file_naming_injective_witness :
    "web" ≠ "web.pcap1" ∧
    List.Disjoint ((List.range 3).map (rotatedFile (pcapBase "web")))
      ((List.range 3).map (rotatedFile (pcapBase "web.pcap1"))) :=
  ⟨by decide, (capture_file_naming_injective "web" "web.pcap1").2.2 (by decide) 3 3⟩

/-! ## Tracked counts are positive -/

theorem CountsPositive_init : CountsPositive State.init := by
  intro k info h
  simp [State.init] at h

theorem CountsPositive_emit (st : State) (evs : List Event) (h : CountsPositive st) :
    CountsPositive (st.emit evs) := h

theorem CountsPositive_start (os : OS) (pod : Pod) (n : Int) (st : State) (hn : 0 < n)
    (h : CountsPositive st) : CountsPositive (startCapture os pod n st) := by
  intro k info hk
  by_cases hkey : k = podKey pod
  · subst hkey
    cases h0 : st.captureProcs (podKey pod) with
    | some i =>
      rw [startCapture_tracked os pod n st i h0] at hk
      exact h _ info hk
    | none =>
      cases hs : os.Start st.trace.length (tcpdumpArgs pod n) with
      | error e =>
        rw [startCapture_fail os pod n st e h0 hs] at hk
        exact h _ info hk
      | ok p =>
        rw [startCapture_ok os pod n st p h0 hs] at hk
        simp at hk
        rw [← hk]
        show 1 ≤ n
        omega
  · rw [startCapture_other os pod n st k hkey] at hk
    exact h k info hk

theorem CountsPositive_stop (os : OS) (pod : Pod) (st : State)
    (h : CountsPositive st) : CountsPositive (stopCapture os pod st) := by
  intro k info hk
  by_cases hkey : k = podKey pod
  · subst hkey
    rw [stopCapture_clears] at hk
    simp at hk
  · rw [stopCapture_other os pod st k hkey] at hk
    exact h k info hk

theorem CountsPositive_handle (w : IntSize) (os : OS) (nodeName : String) (st s : State)
    (nt : Notification) (h : CountsPositive st) (hs : handle w os nodeName st nt = some s) :
    CountsPositive s := by
  cases nt with
  | add pod =>
    simp only [handle, Option.some.injEq] at hs
    subst hs
    intro k info hk
    rw [(AddFunc_frame w nodeName pod st).1] at hk
    exact h k info hk
  | update oldPod newPod =>
    simp only [handle, Option.some.injEq] at hs
    subst hs
    rcases UpdateFunc_shape w os nodeName oldPod newPod st with
      e | ⟨evs, e⟩ | ⟨evs, n, hn, e⟩ | ⟨evs, e⟩ | ⟨evs, n, hn, e⟩
    · rw [e]; exact h
    · rw [e]; exact h
    · rw [e]; exact CountsPositive_start os newPod n _ hn (CountsPositive_emit st evs h)
    · rw [e]; exact CountsPositive_stop os newPod _ (CountsPositive_emit st evs h)
    · rw [e]
      exact CountsPositive_start os newPod n _ hn
        (CountsPositive_stop os newPod _ (CountsPositive_emit st evs h))
  | delete obj =>
    simp only [handle] at hs
    cases obj with
    | finalStateUnknown key last => simp [DeleteFunc] at hs
    | pod pod =>
      by_cases hscope : pod.NodeName = nodeName
      · rw [DeleteFunc_in_scope os nodeName pod st hscope, Option.some.injEq] at hs
        subst hs
        exact CountsPositive_stop os pod _ (CountsPositive_emit st _ h)
      · rw [DeleteFunc_out_of_scope os nodeName pod st hscope, Option.some.injEq] at hs
        subst hs
        exact h

theorem CountsPositive_run (w : IntSize) (os : OS) (nodeName : String)
    (ns : List Notification) (st : State) (h : CountsPositive st) :
    CountsPositive (runNotifications w os nodeName ns st) := by
  induction ns generalizing st with
  | nil => exact h
  | cons nt ns ih =>
    simp only [runNotifications]
    cases hs : handle w os nodeName st nt with
    | none => exact h
    | some s => exact ih s (CountsPositive_handle w os nodeName st s nt h hs)

/-- C16: in every state reached from the empty registry by a sequence of add,
update and delete notifications, under any behaviour of the operating
system, every tracked entry has a count n ≥ 1; so a stop of a tracked pod
attempts n.toNat ≥ 1 removals, the first one of the base file. -/
theorem reachable_counts_positive (w : IntSize) (os : OS) (nodeName : String)
    (ns : List Notification) :
    (∀ k info, (runNotifications w os nodeName ns State.init).captureProcs k = some info →
      1 ≤ info.n) ∧
    (∀ (os2 : OS) (pod : Pod) (info : captureInfo),
      (runNotifications w os nodeName ns State.init).captureProcs (podKey pod) = some info →
      (removeAttempts (eventsSince (runNotifications w os nodeName ns State.init)
        (stopCapture os2 pod (runNotifications w os nodeName ns State.init)))).head? =
        some (pcapBase pod.Name)) := by
  have hinv := CountsPositive_run w os nodeName ns State.init CountsPositive_init
  refine ⟨hinv, ?_⟩
  intro os2 pod info hk
  have hpos := hinv _ info hk
  obtain ⟨-, evs, ht, -, hr, -, -⟩ := stopCapture_tracked os2 pod _ info hk
  have hn' : 0 < info.n.toNat := by omega
  rw [eventsSince_of_trace _ _ evs ht, hr, rotatedFiles_eq _ _ hn']
  rfl

/-- C16 (witness): default/web gets the annotation "3", then "5", and
kube-system/web is deleted; the entry tracked for default/web has count 5. -/
theorem reachable_counts_positive_witness :
    (runNotifications .w64 OS.allOk "node1"
        [.add (podBare "default" "web" "node1"),
          .update (podBare "default" "web" "node1") samplePod,
          .update samplePod (podWith "default" "web" "node1" "5"),
          .delete (.pod (podBare "kube-system" "web" "node1"))]
        State.init).captureProcs (podKey samplePod) =
      some (entryFor (podWith "default" "web" "node1" "5") 5 { Pid := 12 }) ∧
    (1 : Int) ≤ (entryFor (podWith "default" "web" "node1" "5") 5 { Pid := 12 }).n :=
  ⟨by decide,
    (reachable_counts_positive .w64 OS.allOk "node1"
      [.add (podBare "default" "web" "node1"),
        .update (podBare "default" "web" "node1") samplePod,
        .update samplePod (podWith "default" "web" "node1" "5"),
        .delete (.pod (podBare "kube-system" "web" "node1"))]).1 (podKey samplePod)
      (entryFor (podWith "default" "web" "node1" "5") 5 { Pid := 12 }) (by decide)⟩

/-! ## Chains of updates -/

theorem start_tracks (os : OS) (pod : Pod) (n : Int) (st : State)
    (hspawn : ∀ t a, ∃ p, os.Start t a = .ok p)
    (h0 : st.captureProcs (podKey pod) = none) :
    Tracks (startCapture os pod n st) (podKey pod) (.Active n) := by
  obtain ⟨p, hp⟩ := hspawn st.trace.length (tcpdumpArgs pod n)
  rw [startCapture_ok os pod n st p h0 hp]
  exact ⟨entryFor pod n p, by simp [entryFor], rfl⟩

theorem lastValid_invalid (w : IntSize) (r : Request) (p : Pod) (ps : List Pod) (e : GoError)
    (h : interpret w p = .Invalid e) : lastValid w r (p :: ps) = lastValid w r ps := by
  simp [lastValid, h]

theorem lastValid_absent (w : IntSize) (r : Request) (p : Pod) (ps : List Pod)
    (h : interpret w p = .Absent) : lastValid w r (p :: ps) = lastValid w .Absent ps := by
  simp [lastValid, h]

theorem lastValid_active (w : IntSize) (r : Request) (p : Pod) (ps : List Pod) (n : Int)
    (h : interpret w p = .Active n) :
    lastValid w r (p :: ps) = lastValid w (.Active n) ps := by
  simp [lastValid, h]

/-- One step of a chain keeps the registry in agreement with the most recent
non-Invalid request. -/
theorem UpdateFunc_tracks (w : IntSize) (os : OS) (nodeName : String)
    (hspawn : ∀ t a, ∃ p, os.Start t a = .ok p)
    (oldPod newPod : Pod) (st : State) (r : Request)
    (hscope : newPod.NodeName = nodeName)
    (ht : Tracks st (podKey newPod) r)
    (hold : interpret w oldPod = r ∨ ∃ e, interpret w oldPod = .Invalid e) :
    Tracks (UpdateFunc w os nodeName oldPod newPod st) (podKey newPod)
      (lastValid w r [newPod]) := by
  have hrestart : ∀ (n : Int) (s : State),
      Tracks (startCapture os newPod n (stopCapture os newPod s)) (podKey newPod)
        (.Active n) :=
    fun n s => start_tracks os newPod n _ hspawn (stopCapture_clears os newPod s)
  rcases getCaptureCount_cases w newPod with hn | ⟨e, hn⟩ | ⟨n, hpos, hn⟩
  · -- the new snapshot is Absent
    rw [lastValid_absent w r newPod [] ((interpret_absent w newPod).2 hn)]
    show (UpdateFunc w os nodeName oldPod newPod st).captureProcs (podKey newPod) = none
    rcases getCaptureCount_cases w oldPod with ho | ⟨e, ho⟩ | ⟨m, -, ho⟩
    · rw [UpdateFunc_absent_absent w os nodeName oldPod newPod st ho hn]
      have hi := (interpret_absent w oldPod).2 ho
      rcases hold with h1 | ⟨e, h1⟩
      · rw [hi] at h1; rw [← h1] at ht; exact ht
      · rw [hi] at h1; simp at h1
    · rw [UpdateFunc_stop w os nodeName oldPod newPod st hscope (by rw [ho]) hn]
      exact stopCapture_clears os newPod _
    · rw [UpdateFunc_stop w os nodeName oldPod newPod st hscope (by rw [ho]) hn]
      exact stopCapture_clears os newPod _
  · -- the new snapshot is Invalid
    rw [lastValid_invalid w r newPod [] e ((interpret_invalid w newPod e).2 hn),
      UpdateFunc_invalid w os nodeName oldPod newPod st e hscope (by rw [hn])]
    cases r with
    | Absent => exact ht
    | Invalid e2 => exact ht
    | Active k => exact ht
  · -- the new snapshot is Active(n)
    rw [lastValid_active w r newPod [] n ((interpret_active w newPod n).2 hn)]
    show Tracks _ _ (.Active n)
    rcases getCaptureCount_cases w oldPod with ho | ⟨e, ho⟩ | ⟨m, -, ho⟩
    · rw [UpdateFunc_start w os nodeName oldPod newPod st n hscope ho hn]
      have hi := (interpret_absent w oldPod).2 ho
      have hnone : st.captureProcs (podKey newPod) = none := by
        rcases hold with h1 | ⟨e, h1⟩
        · rw [hi] at h1; rw [← h1] at ht; exact ht
        · rw [hi] at h1; simp at h1
      exact start_tracks os newPod n _ hspawn hnone
    · rw [UpdateFunc_restart_any w os nodeName oldPod newPod st n hscope (by rw [ho]) hn
        (by rw [ho]; simp; omega)]
      exact hrestart n _
    · by_cases hmn : m = n
      · subst hmn
        rw [UpdateFunc_same w os nodeName oldPod newPod st m ho hn]
        have hi := (interpret_active w oldPod m).2 ho
        rcases hold with h1 | ⟨e, h1⟩
        · rw [hi] at h1; rw [← h1] at ht; exact ht
        · rw [hi] at h1; simp at h1
      · rw [UpdateFunc_restart_any w os nodeName oldPod newPod st n hscope (by rw [ho]) hn
          (by rw [ho]; exact hmn)]
        exact hrestart n _

theorem lastValid_single_cases (w : IntSize) (r : Request) (p : Pod) :
    (lastValid w r [p] = r ∧ ∃ e, interpret w p = .Invalid e) ∨
    lastValid w r [p] = interpret w p := by
  cases h : interpret w p with
  | Invalid e => exact Or.inl ⟨by simp [lastValid, h], e, rfl⟩
  | Absent => exact Or.inr (by simp [lastValid, h])
  | Active n => exact Or.inr (by simp [lastValid, h])

theorem lastValid_cons (w : IntSize) (r : Request) (p : Pod) (ps : List Pod) :
    lastValid w r (p :: ps) = lastValid w (lastValid w r [p]) ps := by
  cases h : interpret w p <;> simp [lastValid, h]

theorem runUpdates_tracks (w : IntSize) (os : OS) (nodeName key : String)
    (hspawn : ∀ t a, ∃ p, os.Start t a = .ok p) :
    ∀ (news : List Pod) (oldPod : Pod) (st : State) (r : Request),
      (∀ p ∈ news, podKey p = key ∧ p.NodeName = nodeName) →
      Tracks st key r →
      (interpret w oldPod = r ∨ ∃ e, interpret w oldPod = .Invalid e) →
      Tracks (runUpdates w os nodeName oldPod news st) key (lastValid w r news) := by
  intro news
  induction news with
  | nil => intro oldPod st r _ ht _; exact ht
  | cons p ps ih =>
    intro oldPod st r hall ht hold
    obtain ⟨hkey, hscope⟩ := hall p (List.mem_cons_self p ps)
    rw [lastValid_cons]
    simp only [runUpdates]
    apply ih p _ _ (fun q hq => hall q (List.mem_cons_of_mem _ hq))
    · rw [← hkey]
      exact UpdateFunc_tracks w os nodeName hspawn oldPod p st r hscope (hkey ▸ ht) hold
    · rcases lastValid_single_cases w r p with ⟨-, e, he⟩ | h
      · exact Or.inr ⟨e, he⟩
      · exact Or.inl h.symm

/-- C15: a chain of in-scope updates for one pod, handled in order from a
registry without an entry for it, the first old snapshot Absent, each old
snapshot the new snapshot before it, every spawn succeeding.  After the
chain the registry tracks an entry with count n for the pod exactly when the
most recent non-Invalid request of the chain is Active(n), and tracks no entry
exactly when it is Absent. -/
theorem updates_converge (w : IntSize) (os : OS) (nodeName : String)
    (old0 : Pod) (news : List Pod) (st : State)
    (h0 : st.captureProcs (podKey old0) = none)
    (habs : getCaptureCount w old0 = (0, false, none))
    (hid : ∀ p ∈ news, p.Namespace = old0.Namespace ∧ p.Name = old0.Name)
    (hscope : ∀ p ∈ news, p.NodeName = nodeName)
    (hspawn : ∀ t a, ∃ p, os.Start t a = .ok p) :
    (∀ n, (∃ info, (runUpdates w os nodeName old0 news st).captureProcs (podKey old0) =
              some info ∧ info.n = n) ↔
          lastValid w .Absent news = .Active n) ∧
    ((runUpdates w os nodeName old0 news st).captureProcs (podKey old0) = none ↔
          lastValid w .Absent news = .Absent) := by
  have hall : ∀ p ∈ news, podKey p = podKey old0 ∧ p.NodeName = nodeName := by
    intro p hp
    obtain ⟨h1, h2⟩ := hid p hp
    exact ⟨by simp [podKey, h1, h2], hscope p hp⟩
  have ht := runUpdates_tracks w os nodeName (podKey old0) hspawn news old0 st .Absent hall h0
    (Or.inl ((interpret_absent w old0).2 habs))
  cases hl : lastValid w .Absent news with
  | Invalid e => rw [hl] at ht; exact absurd ht id
  | Absent =>
    rw [hl] at ht
    have hnone : (runUpdates w os nodeName old0 news st).captureProcs (podKey old0) = none := ht
    refine ⟨fun n => ⟨?_, fun h => by simp at h⟩, ⟨fun _ => rfl, fun _ => hnone⟩⟩
    rintro ⟨info, hi, -⟩
    rw [hnone] at hi
    simp at hi
  | Active m =>
    rw [hl] at ht
    obtain ⟨info, hi, hm⟩ := ht
    refine ⟨fun n => ⟨?_, ?_⟩, ⟨fun h => ?_, fun h => by simp at h⟩⟩
    · rintro ⟨info2, hi2, hn⟩
      rw [hi] at hi2
      have : info = info2 := by simpa using hi2
      subst this
      rw [← hm, hn]
    · intro h
      have hmn : m = n := by simpa using h
      exact ⟨info, hi, by rw [hm, hmn]⟩
    · rw [hi] at h
      simp at h

/-- C15 (witness): default/web goes from no annotation to "3", then to "abc",
then to "5"; the most recent valid request is Active(5) and the entry tracked
has count 5. -/
theorem updates_converge_witness :
    State.init.captureProcs (podKey (podBare "default" "web" "node1")) = none ∧
    getCaptureCount .w64 (podBare "default" "web" "node1") = (0, false, none) ∧
    lastValid .w64 .Absent
      [samplePod, podWith "default" "web" "node1" "abc", podWith "default" "web" "node1" "5"] =
      .Active 5 ∧
    ∃ info, (runUpdates .w64 OS.allOk "node1" (podBare "default" "web" "node1")
        [samplePod, podWith "default" "web" "node1" "abc", podWith "default" "web" "node1" "5"]
        State.init).captureProcs (podKey (podBare "default" "web" "node1")) = some info ∧
      info.n = 5 :=
  ⟨rfl, by decide, by decide,
    ((updates_converge .w64 OS.allOk "node1" (podBare "default" "web" "node1")
      [samplePod, podWith "default" "web" "node1" "abc", podWith "default" "web" "node1" "5"]
      State.init rfl (by decide) (by decide) (by decide)
      (fun t _ => ⟨{ Pid := t }, rfl⟩)).1 5).2 (by decide)⟩

/-! ## Interleavings of concurrent starts -/

theorem getElem?_set_self_pc (l : List Pc) (i : Nat) (x y : Pc) (h : l[i]? = some y) :
    (l.set i x)[i]? = some x := by
  induction l generalizing i with
  | nil => simp at h
  | cons a l ih =>
    cases i with
    | zero => simp
    | succ i => simpa using ih i (by simpa using h)

theorem getElem?_set_other_pc (l : List Pc) (i j : Nat) (x : Pc) (h : j ≠ i) :
    (l.set i x)[j]? = l[j]? := by
  induction l generalizing i j with
  | nil => simp
  | cons a l ih =>
    cases i with
    | zero =>
      cases j with
      | zero => exact absurd rfl h
      | succ j => simp
    | succ i =>
      cases j with
      | zero => simp
      | succ j => simpa using ih i j (by omega)

theorem set_same_pc (l : List Pc) (i : Nat) (y : Pc) (h : l[i]? = some y) :
    l.set i y = l := by
  induction l generalizing i with
  | nil => simp
  | cons a l ih =>
    cases i with
    | zero => simp at h; simp [h]
    | succ i => simp [ih i (by simpa using h)]

theorem count_done_set (l : List Pc) (i : Nat) (x y : Pc) (h : l[i]? = some y)
    (hy : y ≠ .done) :
    (l.set i x).count .done = l.count .done + (if x = .done then 1 else 0) := by
  induction l generalizing i with
  | nil => simp at h
  | cons a l ih =>
    cases i with
    | zero =>
      simp at h
      subst h
      by_cases hx : x = .done
      · simp [List.count_cons, hx, hy]
      · simp [List.count_cons, hx, hy]
    | succ i =>
      have := ih i (by simpa using h)
      simp only [List.set_cons_succ, List.count_cons, this]
      omega

theorem count_done_set_ne (l : List Pc) (i : Nat) (x y : Pc) (h : l[i]? = some y)
    (hy : y ≠ .done) (hx : x ≠ .done) : (l.set i x).count .done = l.count .done := by
  rw [count_done_set l i x y h hy, if_neg hx, Nat.add_zero]

theorem count_done_set_done (l : List Pc) (i : Nat) (y : Pc) (h : l[i]? = some y)
    (hy : y ≠ .done) : (l.set i .done).count .done = l.count .done + 1 := by
  rw [count_done_set l i .done y h hy, if_pos rfl]

theorem quiet_set (l : List Pc) (i : Nat) (x : Pc) (h : quiet l)
    (hx : x = .lock ∨ x = .done) : quiet (l.set i x) := by
  intro pc hpc
  rcases List.mem_or_eq_of_mem_set hpc with h1 | h1
  · exact h pc h1
  · rw [h1]; exact hx

theorem quiet_getElem? (l : List Pc) (j : Nat) (pc : Pc) (h : quiet l) (hj : l[j]? = some pc) :
    pc = .lock ∨ pc = .done :=
  h pc (List.getElem?_mem hj)

/-- With the invariant, a goroutine found inside the critical section is the
holder of `mu`. -/
theorem inside_is_holder (S : State → State) (key : String) (st0 : State) (c : Conc)
    (hinv : ConcInv S key st0 c) (j : Nat) (pc : Pc) (hj : c.pcs[j]? = some pc)
    (h1 : pc ≠ .lock) (h2 : pc ≠ .done) : c.mu = some j := by
  unfold ConcInv at hinv
  cases hmu : c.mu with
  | none =>
    rw [hmu] at hinv
    rcases quiet_getElem? _ j pc hinv.1 hj with e | e
    · exact absurd e h1
    · exact absurd e h2
  | some i =>
    rw [hmu] at hinv
    by_cases hji : j = i
    · rw [hji]
    · have := getElem?_set_other_pc c.pcs i j .lock hji
      rcases quiet_getElem? _ j pc hinv.1 (this.trans hj) with e | e
      · exact absurd e h1
      · exact absurd e h2

theorem stepStart_inv (os : OS) (pod : Pod) (n : Int) (st0 : State) (j : Nat) (c c2 : Conc)
    (hinv : ConcInv (startCapture os pod n) (podKey pod) st0 c)
    (hstep : stepStart os pod n j c = some c2) :
    ConcInv (startCapture os pod n) (podKey pod) st0 c2 := by
  unfold stepStart at hstep
  cases hpc : c.pcs[j]? with
  | none => rw [hpc] at hstep; simp at hstep
  | some pc =>
    rw [hpc] at hstep
    cases pc with
    | done => simp at hstep
    | lock =>
      cases hmu : c.mu with
      | some i => rw [hmu] at hstep; simp at hstep
      | none =>
        rw [hmu] at hstep
        simp only [Option.some.injEq] at hstep
        subst hstep
        unfold ConcInv at hinv ⊢
        rw [hmu] at hinv
        simp only
        refine ⟨?_, Or.inl ⟨getElem?_set_self_pc _ _ _ _ hpc, ?_⟩⟩
        · rw [List.set_set, set_same_pc _ _ _ hpc]; exact hinv.1
        · rw [count_done_set_ne _ _ .check .lock hpc (by decide) (by decide)]
          exact hinv.2
    | check =>
      have hmu := inside_is_holder _ _ _ c hinv j .check hpc (by decide) (by decide)
      unfold ConcInv at hinv
      rw [hmu] at hinv
      obtain ⟨hq, hcase⟩ := hinv
      have hst : c.st = (startCapture os pod n)^[c.pcs.count .done] st0 := by
        rcases hcase with ⟨-, h⟩ | ⟨h, -⟩ | ⟨h, -⟩
        · exact h
        · rw [hpc] at h; simp at h
        · rw [hpc] at h; simp at h
      cases hreg : c.st.captureProcs (podKey pod) with
      | some info =>
        rw [hreg] at hstep
        simp only [Option.some.injEq] at hstep
        subst hstep
        unfold ConcInv
        simp only [hmu]
        refine ⟨by rw [List.set_set]; exact hq,
          Or.inr (Or.inr ⟨getElem?_set_self_pc _ _ _ _ hpc, ?_⟩)⟩
        rw [count_done_set_ne _ _ .unlock .check hpc (by decide) (by decide),
          Function.iterate_succ_apply', ← hst, startCapture_tracked os pod n c.st info hreg]
      | none =>
        rw [hreg] at hstep
        simp only [Option.some.injEq] at hstep
        subst hstep
        unfold ConcInv
        simp only [hmu]
        refine ⟨by rw [List.set_set]; exact hq,
          Or.inr (Or.inl ⟨getElem?_set_self_pc _ _ _ _ hpc, ?_, hreg⟩)⟩
        rw [count_done_set_ne _ _ .spawn .check hpc (by decide) (by decide)]
        exact hst
    | spawn =>
      have hmu := inside_is_holder _ _ _ c hinv j .spawn hpc (by decide) (by decide)
      unfold ConcInv at hinv
      rw [hmu] at hinv
      obtain ⟨hq, hcase⟩ := hinv
      have hst : c.st = (startCapture os pod n)^[c.pcs.count .done] st0 ∧
          c.st.captureProcs (podKey pod) = none := by
        rcases hcase with ⟨h, -⟩ | ⟨-, h⟩ | ⟨h, -⟩
        · rw [hpc] at h; simp at h
        · exact h
        · rw [hpc] at h; simp at h
      cases hs : os.Start c.st.trace.length (tcpdumpArgs pod n) with
      | error e =>
        rw [hs] at hstep
        simp only [Option.some.injEq] at hstep
        subst hstep
        unfold ConcInv
        simp only [hmu]
        refine ⟨by rw [List.set_set]; exact hq,
          Or.inr (Or.inr ⟨getElem?_set_self_pc _ _ _ _ hpc, ?_⟩)⟩
        rw [count_done_set_ne _ _ .unlock .spawn hpc (by decide) (by decide),
          Function.iterate_succ_apply', ← hst.1, startCapture_fail os pod n c.st e hst.2 hs]
      | ok p =>
        rw [hs] at hstep
        simp only [Option.some.injEq] at hstep
        subst hstep
        unfold ConcInv
        simp only [hmu]
        refine ⟨by rw [List.set_set]; exact hq,
          Or.inr (Or.inr ⟨getElem?_set_self_pc _ _ _ _ hpc, ?_⟩)⟩
        rw [count_done_set_ne _ _ .unlock .spawn hpc (by decide) (by decide),
          Function.iterate_succ_apply', ← hst.1, startCapture_ok os pod n c.st p hst.2 hs]
    | unlock =>
      have hmu := inside_is_holder _ _ _ c hinv j .unlock hpc (by decide) (by decide)
      unfold ConcInv at hinv
      rw [hmu] at hinv
      obtain ⟨hq, hcase⟩ := hinv
      have hst : c.st = (startCapture os pod n)^[c.pcs.count .done + 1] st0 := by
        rcases hcase with ⟨h, -⟩ | ⟨h, -⟩ | ⟨-, h⟩
        · rw [hpc] at h; simp at h
        · rw [hpc] at h; simp at h
        · exact h
      simp only [Option.some.injEq] at hstep
      subst hstep
      unfold ConcInv
      simp only
      refine ⟨?_, ?_⟩
      · have := quiet_set _ j .done hq (Or.inr rfl)
        rwa [List.set_set] at this
      · rw [count_done_set_done _ _ .unlock hpc (by decide)]
        exact hst

theorem stepStart_length (os : OS) (pod : Pod) (n : Int) (j : Nat) (c c2 : Conc)
    (hstep : stepStart os pod n j c = some c2) : c2.pcs.length = c.pcs.length := by
  unfold stepStart at hstep
  split at hstep
  · split at hstep
    · simp only [Option.some.injEq] at hstep; subst hstep; simp
    · simp at hstep
  · split at hstep <;> (simp only [Option.some.injEq] at hstep; subst hstep; simp)
  · split at hstep <;> (simp only [Option.some.injEq] at hstep; subst hstep; simp)
  · simp only [Option.some.injEq] at hstep; subst hstep; simp
  · simp at hstep
  · simp at hstep

theorem runSchedule_inv (os : OS) (pod : Pod) (n : Int) (st0 : State) (sched : List Nat) :
    ∀ c c2 : Conc, ConcInv (startCapture os pod n) (podKey pod) st0 c →
      runSchedule os pod n sched c = some c2 →
      ConcInv (startCapture os pod n) (podKey pod) st0 c2 ∧ c2.pcs.length = c.pcs.length := by
  induction sched with
  | nil =>
    intro c c2 hinv hrun
    simp only [runSchedule, Option.some.injEq] at hrun
    subst hrun
    exact ⟨hinv, rfl⟩
  | cons j rest ih =>
    intro c c2 hinv hrun
    simp only [runSchedule] at hrun
    cases hstep : stepStart os pod n j c with
    | none => rw [hstep] at hrun; simp at hrun
    | some c1 =>
      rw [hstep] at hrun
      obtain ⟨h1, h2⟩ := ih c1 c2 (stepStart_inv os pod n st0 j c c1 hinv hstep) hrun
      exact ⟨h1, h2.trans (stepStart_length os pod n j c c1 hstep)⟩

theorem runSchedule_append (os : OS) (pod : Pod) (n : Int) (s1 s2 : List Nat) (c : Conc) :
    runSchedule os pod n (s1 ++ s2) c =
      (runSchedule os pod n s1 c).bind (runSchedule os pod n s2) := by
  induction s1 generalizing c with
  | nil => rfl
  | cons j rest ih =>
    simp only [List.cons_append, runSchedule]
    cases stepStart os pod n j c with
    | none => rfl
    | some c1 => exact ih c1

theorem ConcInv_start (S : State → State) (key : String) (st : State) (N : Nat) :
    ConcInv S key st (Conc.start N st) := by
  unfold ConcInv Conc.start
  simp only
  refine ⟨?_, ?_⟩
  · intro pc hpc
    exact Or.inl (List.eq_of_mem_replicate hpc)
  · have : (List.replicate N Pc.lock).count .done = 0 := by
      rw [List.count_eq_zero]
      intro h
      have := List.eq_of_mem_replicate h
      exact absurd this (by decide)
    rw [this]
    rfl

theorem finished_all_done (c : Conc) (h : c.finished = true) : ∀ pc ∈ c.pcs, pc = .done := by
  intro pc hpc
  simp only [Conc.finished, List.all_eq_true, beq_iff_eq] at h
  exact h pc hpc

/-- Every complete interleaving leaves the state of as many calls of the
function, one after the other, as there are goroutines. -/
theorem finished_serial (S : State → State) (key : String) (st0 : State) (c : Conc)
    (hinv : ConcInv S key st0 c) (hfin : c.finished = true) :
    c.st = S^[c.pcs.length] st0 := by
  have hall := finished_all_done c hfin
  have hcount : c.pcs.count .done = c.pcs.length := by
    rw [List.count_eq_length]
    intro pc hpc
    exact (hall pc hpc).symm
  unfold ConcInv at hinv
  cases hmu : c.mu with
  | none =>
    rw [hmu] at hinv
    rw [← hcount]
    exact hinv.2
  | some i =>
    rw [hmu] at hinv
    rcases hinv.2 with ⟨h, -⟩ | ⟨h, -⟩ | ⟨h, -⟩ <;>
      exact absurd (hall _ (List.getElem?_mem h)) (by decide)

theorem iterate_tracked (os : OS) (pod : Pod) (n : Int) (st : State) (info : captureInfo)
    (h : st.captureProcs (podKey pod) = some info) (k : Nat) :
    ((startCapture os pod n)^[k] st).captureProcs = st.captureProcs ∧
    ((startCapture os pod n)^[k] st).trace = st.trace ++
      List.replicate k
        (.printf "[INFO] capture already running for %s\n" [.str (podKey pod)]) := by
  induction k with
  | zero => simp
  | succ k ih =>
    rw [Function.iterate_succ_apply']
    have hk : ((startCapture os pod n)^[k] st).captureProcs (podKey pod) = some info := by
      rw [ih.1]; exact h
    rw [startCapture_tracked os pod n _ info hk]
    refine ⟨ih.1, ?_⟩
    simp only [State.emit, ih.2, List.append_assoc, List.replicate_succ']

theorem duplicateNotices_replicate (key : String) (k : Nat) :
    duplicateNotices (List.replicate k
      (.printf "[INFO] capture already running for %s\n" [.str key])) = k := by
  induction k with
  | zero => rfl
  | succ k ih =>
    simp only [List.replicate_succ, duplicateNotices, ih, if_true]
    omega

theorem spawned_replicate_printf (f : String) (args : List Arg) (k : Nat) :
    spawned (List.replicate k (.printf f args)) = [] := by
  induction k with
  | zero => rfl
  | succ k ih => simpa [List.replicate_succ, spawned] using ih

theorem runSchedule_cons (os : OS) (pod : Pod) (n : Int) (i : Nat) (rest : List Nat)
    (c c1 : Conc) (h : stepStart os pod n i c = some c1) :
    runSchedule os pod n (i :: rest) c = runSchedule os pod n rest c1 := by
  simp only [runSchedule, h]

theorem step_lock (os : OS) (pod : Pod) (n : Int) (i : Nat) (c : Conc)
    (hmu : c.mu = none) (hpc : c.pcs[i]? = some .lock) :
    stepStart os pod n i c = some { c with mu := some i, pcs := c.pcs.set i .check } := by
  simp [stepStart, hpc, hmu]

theorem step_check_tracked (os : OS) (pod : Pod) (n : Int) (i : Nat) (c : Conc)
    (info : captureInfo) (hpc : c.pcs[i]? = some .check)
    (hreg : c.st.captureProcs (podKey pod) = some info) :
    stepStart os pod n i c =
      some { c with
        st := c.st.emit [.printf "[INFO] capture already running for %s\n" [.str (podKey pod)]],
        pcs := c.pcs.set i .unlock } := by
  simp [stepStart, hpc, hreg]

theorem step_check_untracked (os : OS) (pod : Pod) (n : Int) (i : Nat) (c : Conc)
    (hpc : c.pcs[i]? = some .check) (hreg : c.st.captureProcs (podKey pod) = none) :
    stepStart os pod n i c = some { c with pcs := c.pcs.set i .spawn } := by
  simp [stepStart, hpc, hreg]

theorem step_spawn (os : OS) (pod : Pod) (n : Int) (i : Nat) (c : Conc)
    (hpc : c.pcs[i]? = some .spawn) (hreg : c.st.captureProcs (podKey pod) = none) :
    stepStart os pod n i c =
      some { c with st := startCapture os pod n c.st, pcs := c.pcs.set i .unlock } := by
  cases hs : os.Start c.st.trace.length (tcpdumpArgs pod n) with
  | error e =>
    rw [startCapture_fail os pod n c.st e hreg hs]
    simp [stepStart, hpc, hs]
  | ok p =>
    rw [startCapture_ok os pod n c.st p hreg hs]
    simp [stepStart, hpc, hs]

theorem step_unlock (os : OS) (pod : Pod) (n : Int) (i : Nat) (c : Conc)
    (hpc : c.pcs[i]? = some .unlock) :
    stepStart os pod n i c = some { c with mu := none, pcs := c.pcs.set i .done } := by
  simp [stepStart, hpc]

/-- A goroutine that finds `mu` free can run its startCapture to the end
without any other goroutine moving, and leaves what startCapture leaves. -/
theorem solo_run (os : OS) (pod : Pod) (n : Int) (i : Nat) (c : Conc)
    (hmu : c.mu = none) (hpc : c.pcs[i]? = some .lock) :
    ∃ sched c2, runSchedule os pod n sched c = some c2 ∧ c2.mu = none ∧
      c2.pcs = c.pcs.set i .done ∧ c2.st = startCapture os pod n c.st := by
  have e1 := step_lock os pod n i c hmu hpc
  have hc1 : (c.pcs.set i .check)[i]? = some .check := getElem?_set_self_pc _ _ _ _ hpc
  cases hreg : c.st.captureProcs (podKey pod) with
  | some info =>
    have e2 := step_check_tracked os pod n i
      { st := c.st, mu := some i, pcs := c.pcs.set i .check } info hc1 hreg
    have e3 := step_unlock os pod n i
      { st := c.st.emit [.printf "[INFO] capture already running for %s\n" [.str (podKey pod)]],
        mu := some i, pcs := (c.pcs.set i .check).set i .unlock }
      (getElem?_set_self_pc _ _ .unlock _ hc1)
    refine ⟨[i, i, i],
      { st := c.st.emit
          [.printf "[INFO] capture already running for %s\n" [.str (podKey pod)]],
        mu := none, pcs := ((c.pcs.set i .check).set i .unlock).set i .done },
      ?_, ?_, ?_, ?_⟩
    · rw [runSchedule_cons _ _ _ _ _ _ _ e1, runSchedule_cons _ _ _ _ _ _ _ e2,
        runSchedule_cons _ _ _ _ _ _ _ e3]
      rfl
    · rfl
    · simp only [List.set_set]
    · simp only [startCapture_tracked os pod n c.st info hreg]
  | none =>
    have e2 := step_check_untracked os pod n i
      { st := c.st, mu := some i, pcs := c.pcs.set i .check } hc1 hreg
    have hc2 := getElem?_set_self_pc _ i .spawn _ hc1
    have e3 := step_spawn os pod n i
      { st := c.st, mu := some i, pcs := (c.pcs.set i .check).set i .spawn } hc2 hreg
    have e4 := step_unlock os pod n i
      { st := startCapture os pod n c.st, mu := some i,
        pcs := ((c.pcs.set i .check).set i .spawn).set i .unlock }
      (getElem?_set_self_pc _ _ .unlock _ hc2)
    refine ⟨[i, i, i, i],
      { st := startCapture os pod n c.st, mu := none,
        pcs := (((c.pcs.set i .check).set i .spawn).set i .unlock).set i .done },
      ?_, ?_, ?_, ?_⟩
    · rw [runSchedule_cons _ _ _ _ _ _ _ e1, runSchedule_cons _ _ _ _ _ _ _ e2,
        runSchedule_cons _ _ _ _ _ _ _ e3, runSchedule_cons _ _ _ _ _ _ _ e4]
      rfl
    · rfl
    · simp only [List.set_set]
    · rfl

theorem duplicateNotices_append (a b : List Event) :
    duplicateNotices (a ++ b) = duplicateNotices a + duplicateNotices b := by
  induction a with
  | nil => simp [duplicateNotices]
  | cons e a ih =>
    cases e with
    | printf f args =>
      show _ + duplicateNotices (a ++ b) = _ + duplicateNotices a + duplicateNotices b
      rw [ih, Nat.add_assoc]
    | start argv proc err => exact ih
    | kill p err => exact ih
    | remove file err => exact ih

theorem replicate_done_lock_get (a : Nat) (l : List Pc) :
    (List.replicate a Pc.done ++ Pc.lock :: l)[a]? = some .lock := by
  induction a with
  | zero => simp
  | succ a ih => simpa [List.replicate_succ] using ih

theorem replicate_done_lock_set (a : Nat) (l : List Pc) :
    (List.replicate a Pc.done ++ Pc.lock :: l).set a .done =
      List.replicate (a + 1) Pc.done ++ l := by
  induction a with
  | zero => simp
  | succ a ih =>
    rw [List.replicate_succ, List.cons_append, List.set_cons_succ, ih]
    simp [List.replicate_succ]

/-- The goroutines can always all return: some interleaving is complete. -/
theorem complete_schedule_exists (os : OS) (pod : Pod) (n : Int) (b : Nat) :
    ∀ (a : Nat) (c : Conc), c.mu = none →
      c.pcs = List.replicate a Pc.done ++ List.replicate b Pc.lock →
      ∃ sched c2, runSchedule os pod n sched c = some c2 ∧ c2.finished = true := by
  induction b with
  | zero =>
    intro a c _ hp
    refine ⟨[], c, rfl, ?_⟩
    simp [Conc.finished, hp]
  | succ b ih =>
    intro a c hmu hp
    rw [List.replicate_succ] at hp
    obtain ⟨s1, c1, hr1, hmu1, hp1, -⟩ := solo_run os pod n a c hmu
      (by rw [hp]; exact replicate_done_lock_get a _)
    rw [hp, replicate_done_lock_set] at hp1
    obtain ⟨s2, c2, hr2, hf⟩ := ih (a + 1) c1 hmu1 hp1
    exact ⟨s1 ++ s2, c2, by rw [runSchedule_append, hr1]; exact hr2, hf⟩

/-- C14 (as amended): N > 0 goroutines call startCapture for the same pod
and count, nothing tracked for the pod, the mutex free, and the spawn
attempted at that time succeeding with process p.  Some interleaving lets
all of them return, and every interleaving that does leaves the same result:
the events are the one successful start followed by N-1 `capture already
running` notices, so one process is spawned and N-1 duplicates are
suppressed, and the pod is tracked with the count and the process p. -/
theorem concurrent_starts (os : OS) (pod : Pod) (n : Int) (N : Nat) (st : State) (p : Process)
    (hN : 0 < N)
    (h0 : st.captureProcs (podKey pod) = none)
    (hs : os.Start st.trace.length (tcpdumpArgs pod n) = .ok p) :
    (∃ sched c, runSchedule os pod n sched (Conc.start N st) = some c ∧ c.finished = true) ∧
    (∀ sched c, runSchedule os pod n sched (Conc.start N st) = some c → c.finished = true →
      eventsSince st c.st =
        [.start (tcpdumpArgs pod n) (some p) none,
          .printf "[CAPTURE RUNNING] %s -> %s\n" [.str (podKey pod), .str (pcapBase pod.Name)]]
          ++ List.replicate (N - 1)
            (.printf "[INFO] capture already running for %s\n" [.str (podKey pod)]) ∧
      spawned (eventsSince st c.st) = [p] ∧
      duplicateNotices (eventsSince st c.st) = N - 1 ∧
      c.st.captureProcs (podKey pod) = some (entryFor pod n p)) := by
  constructor
  · exact complete_schedule_exists os pod n N 0 (Conc.start N st) rfl (by simp [Conc.start])
  · intro sched c hrun hfin
    obtain ⟨hinv, hlen⟩ := runSchedule_inv os pod n st sched _ c
      (ConcInv_start _ _ st N) hrun
    have hser := finished_serial _ _ st c hinv hfin
    rw [hlen] at hser
    simp only [Conc.start, List.length_replicate] at hser
    obtain ⟨M, rfl⟩ : ∃ M, N = M + 1 := ⟨N - 1, by omega⟩
    rw [Function.iterate_succ_apply] at hser
    have h1 := startCapture_ok os pod n st p h0 hs
    have hk : (startCapture os pod n st).captureProcs (podKey pod) =
        some (entryFor pod n p) := by
      rw [h1]; simp [entryFor]
    obtain ⟨hreg, htr⟩ := iterate_tracked os pod n (startCapture os pod n st) _ hk M
    have hev : eventsSince st c.st =
        [.start (tcpdumpArgs pod n) (some p) none,
          .printf "[CAPTURE RUNNING] %s -> %s\n" [.str (podKey pod), .str (pcapBase pod.Name)]]
          ++ List.replicate M
            (.printf "[INFO] capture already running for %s\n" [.str (podKey pod)]) := by
      apply eventsSince_of_trace
      rw [hser, htr, h1]
      simp only [List.append_assoc]
    rw [hev, Nat.add_sub_cancel]
    refine ⟨rfl, ?_, ?_, ?_⟩
    · rw [spawned_append, spawned_replicate_printf]
      rfl
    · have hne : ("[CAPTURE RUNNING] %s -> %s\n" : String) ≠
          "[INFO] capture already running for %s\n" := by decide
      rw [duplicateNotices_append, duplicateNotices_replicate (podKey pod) M]
      simp [duplicateNotices, hne]
    · rw [hser, hreg]
      exact hk

/-- C14 (counterexample to the claim as stated): two goroutines start
default/web on a system where the spawn fails.  Both return, no process is
spawned and no duplicate is suppressed: each call attempts its own spawn. -/
theorem concurrent_starts_spawn_failing :
    State.init.captureProcs (podKey samplePod) = none ∧
    (runSchedule OS.allFail samplePod 3 [0, 0, 0, 0, 1, 1, 1, 1]
        (Conc.start 2 State.init)).map
        (fun c => (c.finished, spawned (eventsSince State.init c.st),
          duplicateNotices (eventsSince State.init c.st),
          (startAttempts (eventsSince State.init c.st)).length)) =
      some (true, [], 0, 2) := by
  decide

/-- C14 (witness): three goroutines start default/web, goroutine 1 getting
the mutex first; one process, two suppressed duplicates. -/
theorem concurrent_starts_witness :
    0 < 3 ∧
    State.init.captureProcs (podKey samplePod) = none ∧
    OS.allOk.Start State.init.trace.length (tcpdumpArgs samplePod 3) = .ok { Pid := 0 } ∧
    (runSchedule OS.allOk samplePod 3 [1, 1, 1, 1, 0, 0, 0, 2, 2, 2]
        (Conc.start 3 State.init)).map
        (fun c => (c.finished, spawned (eventsSince State.init c.st),
          duplicateNotices (eventsSince State.init c.st))) =
      some (true, [{ Pid := 0 }], 2) := by
  refine ⟨by decide, rfl, rfl, ?_⟩
  have hf : (runSchedule OS.allOk samplePod 3 [1, 1, 1, 1, 0, 0, 0, 2, 2, 2]
      (Conc.start 3 State.init)).map (fun c => c.finished) = some true := by decide
  cases hrun : runSchedule OS.allOk samplePod 3 [1, 1, 1, 1, 0, 0, 0, 2, 2, 2]
      (Conc.start 3 State.init) with
  | none => rw [hrun] at hf; simp at hf
  | some c =>
    rw [hrun] at hf
    have hfin : c.finished = true := by simpa using hf
    obtain ⟨-, h2, h3, -⟩ := (concurrent_starts OS.allOk samplePod 3 3 State.init { Pid := 0 }
      (by decide) rfl rfl).2 _ c hrun hfin
    simp [hfin, h2, h3]

end Antrea
